import Mathlib

/-!
Verification development for the `ambak-express-logger` repository.

The JavaScript sources are shallowly embedded in Lean:

* JavaScript strings are modelled as `List Char` (called `JStr` below); the
  string primitives used by the code (`split`, `trim`, `padStart`,
  `startsWith`, `includes`, `toLowerCase`, `slice`, regex-class filters) are
  re-implemented over `List Char` with JavaScript semantics (ASCII case
  mapping; the JS whitespace set).
* JavaScript values flowing through the sanitizer / formatter are modelled by
  the inductive type `JsValue` (null, undefined, booleans, numbers, strings,
  arrays, objects-as-ordered-association-lists).  JSON numbers are carried as
  their lexeme, since the code never inspects numeric values beyond
  truthiness and property-key lookup.
* Sources of nondeterminism or host state (`crypto.randomBytes`, `Date.now`)
  are passed in explicitly as an `Entropy` record, so that every function is
  a pure function of its inputs.
* Regular-expression `test` calls are embedded as decidable Boolean matchers
  with existential-match semantics (a regex `test` succeeds iff some
  substring decomposition matches), specialised to the concrete patterns
  appearing in the source.
-/

set_option maxRecDepth 4000

/-- JavaScript strings, modelled as lists of characters. -/
abbrev JStr := List Char

/-- The JS whitespace set used by `String.prototype.trim` and by the regex
class `\s` (ASCII whitespace, NBSP, BOM and the Unicode space separators). -/
def jsWsB (c : Char) : Bool :=
  c = ' ' || c = '\t' || c = '\n' || c = '\r' ||
  c.toNat = 11 || c.toNat = 12 || c.toNat = 0xa0 || c.toNat = 0xfeff ||
  c.toNat = 0x1680 || (0x2000 ≤ c.toNat && c.toNat ≤ 0x200a) ||
  c.toNat = 0x2028 || c.toNat = 0x2029 || c.toNat = 0x202f ||
  c.toNat = 0x205f || c.toNat = 0x3000

/-- `String.prototype.trim`. -/
def jsTrim (s : JStr) : JStr :=
  ((s.dropWhile jsWsB).reverse.dropWhile jsWsB).reverse

/-- `str.split(sep)` for a single-character separator. -/
def splitOnChar (sep : Char) : JStr → List JStr
  | [] => [[]]
  | c :: r =>
    if c = sep then [] :: splitOnChar sep r
    else
      match splitOnChar sep r with
      | [] => [[c]]
      | h :: t => (c :: h) :: t

/-- `prefixStr` is an initial segment of the second argument
(JS `String.prototype.startsWith`). -/
def startsWithB : JStr → JStr → Bool
  | [], _ => true
  | _ :: _, [] => false
  | p :: ps, c :: cs => p == c && startsWithB ps cs

/-- JS `String.prototype.includes`. -/
def includesB (nd : JStr) : JStr → Bool
  | [] => startsWithB nd []
  | c :: r => startsWithB nd (c :: r) || includesB nd r

/-- Scanning loop of `str.split(sep)` for a non-empty separator.  The fuel
only bounds the recursion; every step consumes at least one character, so
fuel equal to the length of the string is always sufficient. -/
def splitOnStrGo (sep : JStr) : Nat → JStr → List JStr
  | _, [] => [[]]
  | 0, s => [s]
  | fuel + 1, c :: r =>
    if startsWithB sep (c :: r) then
      [] :: splitOnStrGo sep fuel ((c :: r).drop sep.length)
    else
      match splitOnStrGo sep fuel r with
      | [] => [[c]]
      | h :: t => (c :: h) :: t

/-- `str.split(sep)` for a non-empty multi-character separator
(JS `String.prototype.split` with a string argument). -/
def splitOnStr (sep : JStr) (s : JStr) : List JStr :=
  if sep = [] then [s] else splitOnStrGo sep s.length s

/-- `str.padStart(n, c)` for a single-character pad. -/
def padStartL (n : Nat) (c : Char) (s : JStr) : JStr :=
  List.replicate (n - s.length) c ++ s

/-- ASCII lower-casing of a character, the behaviour of
`String.prototype.toLowerCase` on the ASCII inputs handled here. -/
def toLowerChar (c : Char) : Char :=
  if h : 65 ≤ c.toNat ∧ c.toNat ≤ 90 then
    Char.ofNatAux (c.toNat + 32) (Or.inl (by omega))
  else c

/-- JS `String.prototype.toLowerCase`, character by character (ASCII model). -/
def toLowerL (s : JStr) : JStr := s.map toLowerChar

/-- Lower-case hexadecimal digit test (the regex class `[0-9a-f]`),
phrased on codepoints: digits are 48-57, `a`-`f` are 97-102. -/
def isLowHexB (c : Char) : Bool :=
  decide (48 ≤ c.toNat ∧ c.toNat ≤ 57) || decide (97 ≤ c.toNat ∧ c.toNat ≤ 102)

/-- Case-insensitive hexadecimal digit test (the regex class `[0-9a-f]` with
the `i` flag); `A`-`F` are codepoints 65-70. -/
def isHexCIB (c : Char) : Bool :=
  isLowHexB c || decide (65 ≤ c.toNat ∧ c.toNat ≤ 70)

/-- ASCII decimal digit test (the regex class `\d`). -/
def isDigitB (c : Char) : Bool := decide (48 ≤ c.toNat ∧ c.toNat ≤ 57)

/-- Word character test (the regex class `\w`, used by `\b` boundaries):
digits, ASCII letters and the underscore (codepoint 95). -/
def isWordCharB (c : Char) : Bool :=
  isDigitB c || decide (97 ≤ c.toNat ∧ c.toNat ≤ 122) ||
  decide (65 ≤ c.toNat ∧ c.toNat ≤ 90) || c.toNat = 95

/-- The sixteen lower-case hexadecimal digit characters. -/
def hexDigitChar (n : Nat) : Char :=
  "0123456789abcdef".data.getD n '0'

/-- `Buffer.prototype.toString('hex')`: two lower-case hex digits per byte. -/
def bytesToHex : List Nat → JStr
  | [] => []
  | b :: t => hexDigitChar (b / 16 % 16) :: hexDigitChar (b % 16) :: bytesToHex t

/-- `n.toString(16)` for a natural number (JS emits lower-case digits). -/
def natToHex (n : Nat) : JStr :=
  if h : n < 16 then [hexDigitChar n]
  else natToHex (n / 16) ++ [hexDigitChar (n % 16)]
termination_by n
decreasing_by exact Nat.div_lt_self (by omega) (by omega)

/-- Decimal digit string of a natural number (used by `Number.prototype.toFixed(0)`
on the exactly-representable values arising here). -/
def natDecimal (n : Nat) : JStr :=
  if h : n < 10 then [hexDigitChar n]
  else natDecimal (n / 10) ++ [hexDigitChar (n % 10)]
termination_by n
decreasing_by exact Nat.div_lt_self (by omega) (by omega)

/-- The anchored regex `^[0-9a-f]{n}$`: exactly `n` lower-case hex chars. -/
def hexRunB (n : Nat) (s : JStr) : Bool :=
  s.length == n && s.all isLowHexB

/- ### Basic lemmas about the string primitives -/

theorem splitOnChar_ne_nil (sep : Char) (s : JStr) : splitOnChar sep s ≠ [] := by
  cases s with
  | nil => simp [splitOnChar]
  | cons c r =>
    simp only [splitOnChar]
    split
    · simp
    · split <;> simp

theorem splitOnChar_cons_ne (sep c : Char) (r : JStr) (h : ¬ c = sep) :
    splitOnChar sep (c :: r) =
      match splitOnChar sep r with
      | [] => [[c]]
      | h :: t => (c :: h) :: t := by
  simp [splitOnChar, h]

theorem splitOnChar_not_mem (sep : Char) (s : JStr) (h : sep ∉ s) :
    splitOnChar sep s = [s] := by
  induction s with
  | nil => rfl
  | cons c r ih =>
    simp only [List.mem_cons, not_or] at h
    have h1 : ¬ c = sep := fun hc => h.left (Eq.symm hc)
    rw [splitOnChar_cons_ne sep c r h1, ih h.right]

theorem splitOnChar_append (sep : Char) (a rest : JStr) (h : sep ∉ a) :
    splitOnChar sep (a ++ sep :: rest) = a :: splitOnChar sep rest := by
  induction a with
  | nil => simp [splitOnChar]
  | cons c r ih =>
    simp only [List.mem_cons, not_or] at h
    have h1 : ¬ c = sep := fun hc => h.left (Eq.symm hc)
    show splitOnChar sep (c :: (r ++ sep :: rest)) = _
    rw [splitOnChar_cons_ne sep c _ h1, ih h.right]

theorem hexDigitChar_isLowHex (n : Nat) : isLowHexB (hexDigitChar n) = true := by
  unfold hexDigitChar
  by_cases h : n < 16
  · interval_cases n <;> decide
  · rw [List.getD_eq_default]
    · decide
    · simpa using by omega

theorem hexDigitChar_ne_dash (n : Nat) : hexDigitChar n ≠ '-' := by
  intro h
  have h2 := hexDigitChar_isLowHex n
  rw [h] at h2
  simp [isLowHexB] at h2

theorem bytesToHex_length (bs : List Nat) : (bytesToHex bs).length = 2 * bs.length := by
  induction bs with
  | nil => rfl
  | cons b t ih =>
    simp only [bytesToHex, List.length_cons, ih]
    omega

theorem bytesToHex_all_hex (bs : List Nat) : (bytesToHex bs).all isLowHexB = true := by
  induction bs with
  | nil => rfl
  | cons b t ih => simp_all [bytesToHex, hexDigitChar_isLowHex]

theorem bytesToHex_hexRun (bs : List Nat) (n : Nat) (h : bs.length = n) :
    hexRunB (2 * n) (bytesToHex bs) = true := by
  simp [hexRunB, bytesToHex_length, h, List.all_eq_true]
  intro c hc
  have := bytesToHex_all_hex bs
  rw [List.all_eq_true] at this
  exact this c hc

theorem natToHex_all_hex (n : Nat) : (natToHex n).all isLowHexB = true := by
  induction n using Nat.strong_induction_on with
  | _ n ih =>
    unfold natToHex
    split
    · simp [hexDigitChar_isLowHex]
    · rename_i h
      simp only [List.all_append, List.all_cons, List.all_nil, Bool.and_true,
        Bool.and_eq_true]
      exact ⟨ih (n / 16) (Nat.div_lt_self (by omega) (by omega)),
             hexDigitChar_isLowHex _⟩

theorem natToHex_length_le (n k : Nat) (h : n < 16 ^ (k + 1)) :
    (natToHex n).length ≤ k + 1 := by
  induction k generalizing n with
  | zero =>
    rw [pow_one] at h
    unfold natToHex
    rw [dif_pos h]
    simp
  | succ k ih =>
    unfold natToHex
    split
    · simp
    · rename_i hn
      have hdiv : n / 16 < 16 ^ (k + 1) := by
        rw [Nat.div_lt_iff_lt_mul (by omega)]
        calc n < 16 ^ (k + 1 + 1) := h
        _ = 16 ^ (k + 1) * 16 := by ring
      have hrec := ih (n / 16) hdiv
      simp only [List.length_append, List.length_cons, List.length_nil]
      omega

theorem natDecimal_length_le (n k : Nat) (h : n < 10 ^ (k + 1)) :
    (natDecimal n).length ≤ k + 1 := by
  induction k generalizing n with
  | zero =>
    rw [pow_one] at h
    unfold natDecimal
    rw [dif_pos h]
    simp
  | succ k ih =>
    unfold natDecimal
    split
    · simp
    · rename_i hn
      have hdiv : n / 10 < 10 ^ (k + 1) := by
        rw [Nat.div_lt_iff_lt_mul (by omega)]
        calc n < 10 ^ (k + 1 + 1) := h
        _ = 10 ^ (k + 1) * 10 := by ring
      have hrec := ih (n / 10) hdiv
      simp only [List.length_append, List.length_cons, List.length_nil]
      omega

theorem padStartL_length (n : Nat) (c : Char) (s : JStr) :
    (padStartL n c s).length = max n s.length := by
  simp only [padStartL, List.length_append, List.length_replicate]
  omega

theorem hexRun_no_dash {n : Nat} {s : JStr} (h : hexRunB n s = true) : '-' ∉ s := by
  intro hmem
  simp only [hexRunB, Bool.and_eq_true, List.all_eq_true] at h
  have := h.2 '-' hmem
  exact absurd this (by decide)

theorem toNat_ofNatAux (n : Nat) (h : n.isValidChar) :
    (Char.ofNatAux n h).toNat = n := rfl

theorem toLowerChar_hexCI {c : Char} (h : isHexCIB c = true) :
    isLowHexB (toLowerChar c) = true := by
  simp only [isHexCIB, isLowHexB, Bool.or_eq_true, decide_eq_true_eq] at h
  unfold toLowerChar
  split
  · rename_i hu
    simp only [isLowHexB, toNat_ofNatAux, Bool.or_eq_true, decide_eq_true_eq]
    omega
  · rename_i hu
    simp only [isLowHexB, Bool.or_eq_true, decide_eq_true_eq]
    omega

theorem toLowerChar_lowHex {c : Char} (h : isLowHexB c = true) :
    toLowerChar c = c := by
  simp only [isLowHexB, Bool.or_eq_true, decide_eq_true_eq] at h
  unfold toLowerChar
  rw [dif_neg]
  omega

theorem toLowerL_lowHex {s : JStr} (h : s.all isLowHexB = true) :
    toLowerL s = s := by
  induction s with
  | nil => rfl
  | cons c r ih =>
    simp only [List.all_cons, Bool.and_eq_true] at h
    have hr := ih h.2
    simp only [toLowerL, List.map_cons] at hr ⊢
    rw [toLowerChar_lowHex h.1, hr]

/-! ### Trace context (src/context/trace-context.js)

`crypto.randomBytes` and `Date.now()` are modelled by an explicit `Entropy`
record carried through the functions: `r16`, `r12` and `r8` stand for the
byte strings returned by `randomBytes(16)`, `randomBytes(12)` and
`randomBytes(8)`, and `nowMs` for `Date.now()`. -/

structure Entropy where
  nowMs : Nat
  r16 : List Nat
  r12 : List Nat
  r8 : List Nat
deriving Repr, DecidableEq

/-- The `TraceContext` object: `version`, `traceId`, `spanId`, `traceFlags`
and the `traceState` map (as an ordered association list). -/
structure TraceCtx where
  version : JStr
  traceId : JStr
  spanId : JStr
  traceFlags : JStr
  traceState : List (JStr × JStr)
deriving Repr, DecidableEq

/-- The `TraceContext` constructor defaults. -/
def newTraceCtx : TraceCtx :=
  { version := "00".data, traceId := [], spanId := [],
    traceFlags := "01".data, traceState := [] }

/-- `TraceContext.generateNew(awsFormat)`. -/
def generateNew (awsFormat : Bool) (ent : Entropy) : TraceCtx :=
  if awsFormat then
    let epochSeconds := ent.nowMs / 1000
    let hexTimestamp := toLowerL (padStartL 8 '0' (natToHex epochSeconds))
    { newTraceCtx with
      traceId := '1' :: '-' :: (hexTimestamp ++ '-' :: bytesToHex ent.r12),
      spanId := bytesToHex ent.r8 }
  else
    { newTraceCtx with
      traceId := bytesToHex ent.r16,
      spanId := bytesToHex ent.r8 }

/-- `TraceContext.parseTraceParent(header)`.  The body is wrapped in a
`try`/`catch` in the source, but every operation in it is total, so the
`catch` branch is dead and is not modelled. -/
def parseTraceParent (header : JStr) (ent : Entropy) : TraceCtx :=
  if header = [] then generateNew false ent
  else
    match splitOnChar '-' header with
    | [version, traceId, _spanId, flags] =>
      if hexRunB 2 version && hexRunB 32 traceId && hexRunB 16 _spanId &&
         hexRunB 2 flags then
        { newTraceCtx with
          version := version,
          traceId := traceId,
          spanId := bytesToHex ent.r8,
          traceFlags := flags }
      else generateNew false ent
    | _ => generateNew false ent

/-- The `header.split(';o=')` pieces of `parseCloudTrace`; the second piece
(`options`) is `undefined` when absent, modelled by `Option`. -/
def cloudPieces (header : JStr) : List JStr := splitOnStr ";o=".data header

/-- The `traceId` extracted by `parseCloudTrace`: the part of the first
`;o=`-piece before the first `/`. -/
def cloudTraceIdRaw (header : JStr) : JStr :=
  (splitOnChar '/' ((cloudPieces header).getD 0 [])).getD 0 []

/-- `TraceContext.parseCloudTrace(header)`. -/
def parseCloudTrace (header : JStr) (ent : Entropy) : TraceCtx :=
  if header = [] then generateNew false ent
  else
    if cloudTraceIdRaw header = [] then generateNew false ent
    else
      { newTraceCtx with
        traceId := padStartL 32 '0' (cloudTraceIdRaw header),
        spanId := bytesToHex ent.r8,
        traceFlags :=
          if (cloudPieces header)[1]? = some ['0'] then "00".data else "01".data }

/-- The quote-stripping step `header.replace(/^["']|["']$/g, '')` of
`parseAwsTraceId`: one leading and one trailing quote character removed. -/
def stripEdgeQuotes (s : JStr) : JStr :=
  let s1 :=
    match s with
    | [] => []
    | c :: r => if c = '"' ∨ c = '\'' then r else s
  match h : s1.reverse with
  | [] => s1
  | c :: r => if c = '"' ∨ c = '\'' then r.reverse else s1

/-- One step of the `for (const part of parts)` loop in `parseAwsTraceId`:
the accumulator is `(rootPart, parentPart, sampled)`. -/
def awsPartStep (acc : JStr × JStr × JStr) (part : JStr) : JStr × JStr × JStr :=
  let t := jsTrim part
  if startsWithB "Root=".data t then (t.drop 5, acc.2.1, acc.2.2)
  else if startsWithB "Parent=".data t then (acc.1, t.drop 7, acc.2.2)
  else if startsWithB "Sampled=".data t then (acc.1, acc.2.1, t.drop 8)
  else acc

/-- The `(rootPart, parentPart, sampled)` accumulator after the part loop of
`parseAwsTraceId` (initial value `('', '', '1')`). -/
def awsAcc (header : JStr) : JStr × JStr × JStr :=
  (splitOnChar ';' (stripEdgeQuotes header)).foldl awsPartStep ([], [], ['1'])

/-- `TraceContext.parseAwsTraceId(header)`.  The `rootParts.length >= 3`
conditional assigns `rootPart` to `context.traceId` in both of its branches
and is therefore collapsed here. -/
def parseAwsTraceId (header : JStr) (ent : Entropy) : TraceCtx :=
  if header = [] then generateNew false ent
  else
    if (awsAcc header).1 = [] then generateNew false ent
    else
      { newTraceCtx with
        traceId := (awsAcc header).1,
        spanId :=
          if (awsAcc header).2.1 ≠ [] then
            toLowerL (padStartL 16 '0' (((awsAcc header).2.1.filter isHexCIB).take 16))
          else bytesToHex ent.r8,
        traceFlags := if (awsAcc header).2.2 = ['0'] then "00".data else "01".data }

/-- `TraceContext.prototype.toTraceParent()`. -/
def toTraceParent (ctx : TraceCtx) : JStr :=
  ctx.version ++ '-' :: (ctx.traceId ++ '-' :: (ctx.spanId ++ '-' :: ctx.traceFlags))

/-- The AWS X-Ray trace-id shape described by the specification:
`1-` followed by 8 hex chars, `-`, then 24 hex chars.  This definition
follows the spec's words (used to state the claims about AWS-shaped ids). -/
def specAwsTraceShapeB (s : JStr) : Bool :=
  match splitOnChar '-' s with
  | [one, ts, rnd] => one == ['1'] && hexRunB 8 ts && hexRunB 24 rnd
  | _ => false

/-- Fixed entropy used by concrete witnesses and counterexamples. -/
def ent0 : Entropy :=
  { nowMs := 1700000000000,
    r16 := List.replicate 16 0,
    r12 := List.replicate 12 0,
    r8 := List.replicate 8 0 }

/- ### Helper lemmas about the trace-context operations -/

theorem hexRunB_iff {n : Nat} {s : JStr} :
    hexRunB n s = true ↔ s.length = n ∧ ∀ c ∈ s, isLowHexB c = true := by
  simp [hexRunB, List.all_eq_true]

theorem bytesToHex_hexRun' (bs : List Nat) (n m : Nat) (h : bs.length = n)
    (hm : 2 * n = m) : hexRunB m (bytesToHex bs) = true := by
  subst hm
  exact bytesToHex_hexRun bs n h

theorem generateNew_w3c_traceId (ent : Entropy) (h16 : ent.r16.length = 16) :
    hexRunB 32 (generateNew false ent).traceId = true := by
  simp only [generateNew, if_neg Bool.false_ne_true]
  exact bytesToHex_hexRun' ent.r16 16 32 h16 rfl

theorem generateNew_w3c_spanId (ent : Entropy) (h8 : ent.r8.length = 8) :
    hexRunB 16 (generateNew false ent).spanId = true := by
  simp only [generateNew, if_neg Bool.false_ne_true]
  exact bytesToHex_hexRun' ent.r8 8 16 h8 rfl

theorem generateNew_aws_spanId (ent : Entropy) (h8 : ent.r8.length = 8) :
    hexRunB 16 (generateNew true ent).spanId = true := by
  simp only [generateNew, if_pos rfl]
  exact bytesToHex_hexRun' ent.r8 8 16 h8 rfl

theorem padStartL_all_hex {s : JStr} (n : Nat) (h : s.all isLowHexB = true) :
    (padStartL n '0' s).all isLowHexB = true := by
  simp only [padStartL, List.all_append, Bool.and_eq_true, List.all_eq_true]
  refine ⟨fun c hc => ?_, ?_⟩
  · rw [List.eq_of_mem_replicate hc]
    decide
  · rw [List.all_eq_true] at h
    exact h

theorem generateNew_aws_timestamp (ent : Entropy) (hts : ent.nowMs / 1000 < 16 ^ 8) :
    hexRunB 8 (toLowerL (padStartL 8 '0' (natToHex (ent.nowMs / 1000)))) = true := by
  have hall : (padStartL 8 '0' (natToHex (ent.nowMs / 1000))).all isLowHexB = true :=
    padStartL_all_hex 8 (natToHex_all_hex _)
  rw [toLowerL_lowHex hall, hexRunB_iff]
  constructor
  · rw [padStartL_length]
    have := natToHex_length_le (ent.nowMs / 1000) 7 (by exact_mod_cast hts)
    omega
  · rw [List.all_eq_true] at hall
    exact hall

theorem no_dash_of_all_hex {s : JStr} (h : s.all isLowHexB = true) : '-' ∉ s := by
  intro hmem
  rw [List.all_eq_true] at h
  have := h '-' hmem
  simp [isLowHexB] at this

theorem generateNew_aws_shape (ent : Entropy) (h12 : ent.r12.length = 12)
    (hts : ent.nowMs / 1000 < 16 ^ 8) :
    specAwsTraceShapeB (generateNew true ent).traceId = true := by
  have htr : (generateNew true ent).traceId =
      '1' :: '-' :: (toLowerL (padStartL 8 '0' (natToHex (ent.nowMs / 1000))) ++
        '-' :: bytesToHex ent.r12) := rfl
  rw [htr]
  have hts8 := generateNew_aws_timestamp ent hts
  have htsall : ∀ c ∈ toLowerL (padStartL 8 '0' (natToHex (ent.nowMs / 1000))),
      isLowHexB c = true := (hexRunB_iff.mp hts8).2
  have hrnd : hexRunB 24 (bytesToHex ent.r12) = true :=
    bytesToHex_hexRun' ent.r12 12 24 h12 rfl
  have hrndall : '-' ∉ bytesToHex ent.r12 :=
    no_dash_of_all_hex (bytesToHex_all_hex ent.r12)
  unfold specAwsTraceShapeB
  have hsplit :
      splitOnChar '-' ('1' :: '-' ::
        (toLowerL (padStartL 8 '0' (natToHex (ent.nowMs / 1000))) ++
          '-' :: bytesToHex ent.r12)) =
      ['1'] :: toLowerL (padStartL 8 '0' (natToHex (ent.nowMs / 1000))) ::
        [bytesToHex ent.r12] := by
    have h1 : splitOnChar '-' (['1'] ++ '-' ::
        (toLowerL (padStartL 8 '0' (natToHex (ent.nowMs / 1000))) ++
          '-' :: bytesToHex ent.r12)) = _ :=
      splitOnChar_append '-' ['1'] _ (by decide)
    rw [List.singleton_append] at h1
    rw [h1]
    rw [splitOnChar_append '-' _ _
      (fun hmem => absurd (htsall '-' hmem) (by decide))]
    rw [splitOnChar_not_mem '-' _ hrndall]
  rw [hsplit]
  simp only [Bool.and_eq_true, beq_iff_eq]
  exact ⟨⟨trivial, hts8⟩, hrnd⟩

theorem awsFold_no_root (parts : List JStr) (acc : JStr × JStr × JStr)
    (h : ∀ p ∈ parts, startsWithB "Root=".data (jsTrim p) = false) :
    (parts.foldl awsPartStep acc).1 = acc.1 := by
  induction parts generalizing acc with
  | nil => rfl
  | cons p t ih =>
    simp only [List.foldl_cons]
    rw [ih _ (fun q hq => h q (List.mem_cons_of_mem _ hq))]
    have hp := h p (List.mem_cons_self _ _)
    simp only [awsPartStep, hp, Bool.false_eq_true, if_false]
    split
    · rfl
    · split
      · rfl
      · rfl

theorem parentSpanId_hexRun (p : JStr) :
    hexRunB 16 (toLowerL (padStartL 16 '0' ((p.filter isHexCIB).take 16))) = true := by
  rw [hexRunB_iff]
  constructor
  · simp only [toLowerL, List.length_map, padStartL_length, List.length_take]
    omega
  · intro c hc
    simp only [toLowerL, List.mem_map] at hc
    obtain ⟨c', hc', rfl⟩ := hc
    simp only [padStartL, List.mem_append] at hc'
    rcases hc' with hrep | htake
    · rw [List.eq_of_mem_replicate hrep]
      decide
    · have : c' ∈ p.filter isHexCIB := List.mem_of_mem_take htake
      have hci : isHexCIB c' = true := (List.mem_filter.mp this).2
      exact toLowerChar_hexCI hci

theorem parseTraceParent_spanId (header : JStr) (ent : Entropy)
    (h8 : ent.r8.length = 8) :
    hexRunB 16 (parseTraceParent header ent).spanId = true := by
  have hgen := generateNew_w3c_spanId ent h8
  have hfresh : hexRunB 16 (bytesToHex ent.r8) = true :=
    bytesToHex_hexRun' ent.r8 8 16 h8 rfl
  unfold parseTraceParent
  split
  · exact hgen
  · split
    · split
      · exact hfresh
      · exact hgen
    · exact hgen

theorem parseTraceParent_traceId (header : JStr) (ent : Entropy)
    (h16 : ent.r16.length = 16) :
    hexRunB 32 (parseTraceParent header ent).traceId = true := by
  have hgen := generateNew_w3c_traceId ent h16
  unfold parseTraceParent
  split
  · exact hgen
  · split
    · split
      · rename_i hcond
        simp only [Bool.and_eq_true] at hcond
        exact hcond.1.1.2
      · exact hgen
    · exact hgen

theorem parseCloudTrace_spanId (header : JStr) (ent : Entropy)
    (h8 : ent.r8.length = 8) :
    hexRunB 16 (parseCloudTrace header ent).spanId = true := by
  have hgen := generateNew_w3c_spanId ent h8
  have hfresh : hexRunB 16 (bytesToHex ent.r8) = true :=
    bytesToHex_hexRun' ent.r8 8 16 h8 rfl
  unfold parseCloudTrace
  split
  · exact hgen
  · split
    · exact hgen
    · exact hfresh

theorem parseAwsTraceId_spanId (header : JStr) (ent : Entropy)
    (h8 : ent.r8.length = 8) :
    hexRunB 16 (parseAwsTraceId header ent).spanId = true := by
  have hgen := generateNew_w3c_spanId ent h8
  have hfresh : hexRunB 16 (bytesToHex ent.r8) = true :=
    bytesToHex_hexRun' ent.r8 8 16 h8 rfl
  unfold parseAwsTraceId
  split
  · exact hgen
  · split
    · exact hgen
    · split
      · exact parentSpanId_hexRun _
      · exact hfresh

theorem no_dash_of_hexRun {n : Nat} {s : JStr} (h : hexRunB n s = true) :
    '-' ∉ s := by
  intro hmem
  have := (hexRunB_iff.mp h).2 '-' hmem
  simp [isLowHexB] at this

/-- The validation of `parseTraceParent`: four dash-separated fields of
2/32/16/2 lower-case hex characters. -/
def validTraceparentB (header : JStr) : Bool :=
  match splitOnChar '-' header with
  | [v, t, s, f] => hexRunB 2 v && hexRunB 32 t && hexRunB 16 s && hexRunB 2 f
  | _ => false

/-- C2 (corrected): for every header whose `;`-separated fields (after quote
stripping and trimming) never start with `Root=`, `parseAwsTraceId` falls
back to `generateNew()` WITHOUT the AWS-format flag: the resulting traceId
is a plain 32-hex W3C id (not the AWS X-Ray triplet) and the spanId is
16 hex chars. -/
theorem C2_missing_root_fallback_amended (header : JStr) (ent : Entropy)
    (hroot : ∀ p ∈ splitOnChar ';' (stripEdgeQuotes header),
      startsWithB "Root=".data (jsTrim p) = false)
    (h16 : ent.r16.length = 16) (h8 : ent.r8.length = 8) :
    parseAwsTraceId header ent = generateNew false ent ∧
    hexRunB 32 (parseAwsTraceId header ent).traceId = true ∧
    hexRunB 16 (parseAwsTraceId header ent).spanId = true := by
  have hacc : (awsAcc header).1 = [] := awsFold_no_root _ _ hroot
  have heq : parseAwsTraceId header ent = generateNew false ent := by
    unfold parseAwsTraceId
    split
    · rfl
    · rfl
  refine ⟨heq, ?_, ?_⟩
  · rw [heq]
    exact generateNew_w3c_traceId ent h16
  · rw [heq]
    exact generateNew_w3c_spanId ent h8

theorem C2_missing_root_fallback_amended_witness :
    parseAwsTraceId "Parent=745315306bfc9ca3".data ent0 = generateNew false ent0 ∧
    hexRunB 32 (parseAwsTraceId "Parent=745315306bfc9ca3".data ent0).traceId = true ∧
    hexRunB 16 (parseAwsTraceId "Parent=745315306bfc9ca3".data ent0).spanId = true :=
  C2_missing_root_fallback_amended "Parent=745315306bfc9ca3".data ent0
    (by decide) (by decide) (by decide)

/-- C2 counterexample: the header `Parent=745315306bfc9ca3` has no
`Root=` field, yet the context returned by `parseAwsTraceId` does NOT have
the AWS X-Ray trace-id shape claimed for the fallback (it is the plain
W3C-format id produced by `generateNew()` without the AWS flag). -/
theorem C2_counterexample :
    ((splitOnChar ';' (stripEdgeQuotes "Parent=745315306bfc9ca3".data)).all
      (fun p => !startsWithB "Root=".data (jsTrim p))) = true ∧
    specAwsTraceShapeB
      (parseAwsTraceId "Parent=745315306bfc9ca3".data ent0).traceId = false := by
  decide

/-- C3 (corrected): the spanId held by every parsing operation is always 16
lower-case hex chars, and `parseTraceParent` and `generateNew` only produce
well-formed trace ids (32 hex, or the AWS triplet when the AWS flag is set);
but `parseCloudTrace` and `parseAwsTraceId` copy header-derived trace ids
verbatim and so CAN hold malformed trace ids (see the counterexample). -/
theorem C3_wellformed_ids_amended (header : JStr) (ent : Entropy)
    (h16 : ent.r16.length = 16) (h12 : ent.r12.length = 12)
    (h8 : ent.r8.length = 8) (hts : ent.nowMs / 1000 < 16 ^ 8) :
    hexRunB 32 (parseTraceParent header ent).traceId = true ∧
    hexRunB 16 (parseTraceParent header ent).spanId = true ∧
    hexRunB 16 (parseCloudTrace header ent).spanId = true ∧
    hexRunB 16 (parseAwsTraceId header ent).spanId = true ∧
    hexRunB 32 (generateNew false ent).traceId = true ∧
    hexRunB 16 (generateNew false ent).spanId = true ∧
    specAwsTraceShapeB (generateNew true ent).traceId = true ∧
    hexRunB 16 (generateNew true ent).spanId = true :=
  ⟨parseTraceParent_traceId header ent h16, parseTraceParent_spanId header ent h8,
   parseCloudTrace_spanId header ent h8, parseAwsTraceId_spanId header ent h8,
   generateNew_w3c_traceId ent h16, generateNew_w3c_spanId ent h8,
   generateNew_aws_shape ent h12 hts, generateNew_aws_spanId ent h8⟩

theorem C3_wellformed_ids_amended_witness :
    hexRunB 32 (parseTraceParent "zz".data ent0).traceId = true ∧
    hexRunB 16 (parseTraceParent "zz".data ent0).spanId = true ∧
    hexRunB 16 (parseCloudTrace "zz".data ent0).spanId = true ∧
    hexRunB 16 (parseAwsTraceId "zz".data ent0).spanId = true ∧
    hexRunB 32 (generateNew false ent0).traceId = true ∧
    hexRunB 16 (generateNew false ent0).spanId = true ∧
    specAwsTraceShapeB (generateNew true ent0).traceId = true ∧
    hexRunB 16 (generateNew true ent0).spanId = true :=
  C3_wellformed_ids_amended "zz".data ent0 (by decide) (by decide) (by decide)
    (by decide)

/-- C3 counterexample: `parseCloudTrace` on the header `zz` accepts and
stores the zero-padded trace id `000...0zz`, which is neither a 32-hex W3C
id nor an AWS triplet: a parsed context CAN hold a malformed trace id. -/
theorem C3_counterexample :
    hexRunB 32 (parseCloudTrace "zz".data ent0).traceId = false ∧
    specAwsTraceShapeB (parseCloudTrace "zz".data ent0).traceId = false := by
  decide

/-- C4 (confirmed): a well-formed traceparent header `v-t-s-f` (2/32/16/2
lower-case hex) is accepted: version, traceId and flags are retained, a
fresh random spanId is minted, and `toTraceParent` of the result splits back
into `v`, `t`, the fresh spanId, and `f`. -/
theorem C4_traceparent_roundtrip (v t s f : JStr) (ent : Entropy)
    (hv : hexRunB 2 v = true) (ht : hexRunB 32 t = true)
    (hs : hexRunB 16 s = true) (hf : hexRunB 2 f = true) :
    (parseTraceParent (v ++ '-' :: (t ++ '-' :: (s ++ '-' :: f))) ent).version = v ∧
    (parseTraceParent (v ++ '-' :: (t ++ '-' :: (s ++ '-' :: f))) ent).traceId = t ∧
    (parseTraceParent (v ++ '-' :: (t ++ '-' :: (s ++ '-' :: f))) ent).traceFlags = f ∧
    (parseTraceParent (v ++ '-' :: (t ++ '-' :: (s ++ '-' :: f))) ent).spanId =
      bytesToHex ent.r8 ∧
    splitOnChar '-'
      (toTraceParent (parseTraceParent (v ++ '-' :: (t ++ '-' :: (s ++ '-' :: f))) ent)) =
      [v, t, bytesToHex ent.r8, f] := by
  have hvd := no_dash_of_hexRun hv
  have htd := no_dash_of_hexRun ht
  have hsd := no_dash_of_hexRun hs
  have hfd := no_dash_of_hexRun hf
  have hsplit : splitOnChar '-' (v ++ '-' :: (t ++ '-' :: (s ++ '-' :: f))) =
      [v, t, s, f] := by
    rw [splitOnChar_append '-' v _ hvd, splitOnChar_append '-' t _ htd,
        splitOnChar_append '-' s _ hsd, splitOnChar_not_mem '-' f hfd]
  have hne : v ++ '-' :: (t ++ '-' :: (s ++ '-' :: f)) ≠ [] := by simp
  have hctx : parseTraceParent (v ++ '-' :: (t ++ '-' :: (s ++ '-' :: f))) ent =
      { newTraceCtx with
        version := v
        traceId := t
        spanId := bytesToHex ent.r8
        traceFlags := f } := by
    unfold parseTraceParent
    rw [if_neg hne, hsplit]
    simp [hv, ht, hs, hf]
  have hspan : '-' ∉ bytesToHex ent.r8 :=
    no_dash_of_all_hex (bytesToHex_all_hex ent.r8)
  refine ⟨by rw [hctx], by rw [hctx], by rw [hctx], by rw [hctx], ?_⟩
  rw [hctx]
  show splitOnChar '-' (v ++ '-' :: (t ++ '-' :: (bytesToHex ent.r8 ++ '-' :: f))) = _
  rw [splitOnChar_append '-' v _ hvd, splitOnChar_append '-' t _ htd,
      splitOnChar_append '-' _ _ hspan, splitOnChar_not_mem '-' f hfd]

theorem C4_traceparent_roundtrip_witness :
    (parseTraceParent ("00".data ++ '-' ::
      ("4bf92f3577b34da6a3ce929d0e0e4736".data ++ '-' ::
        ("00f067aa0ba902b7".data ++ '-' :: "01".data))) ent0).version = "00".data ∧
    (parseTraceParent ("00".data ++ '-' ::
      ("4bf92f3577b34da6a3ce929d0e0e4736".data ++ '-' ::
        ("00f067aa0ba902b7".data ++ '-' :: "01".data))) ent0).traceId =
      "4bf92f3577b34da6a3ce929d0e0e4736".data ∧
    (parseTraceParent ("00".data ++ '-' ::
      ("4bf92f3577b34da6a3ce929d0e0e4736".data ++ '-' ::
        ("00f067aa0ba902b7".data ++ '-' :: "01".data))) ent0).traceFlags = "01".data ∧
    (parseTraceParent ("00".data ++ '-' ::
      ("4bf92f3577b34da6a3ce929d0e0e4736".data ++ '-' ::
        ("00f067aa0ba902b7".data ++ '-' :: "01".data))) ent0).spanId =
      bytesToHex ent0.r8 ∧
    splitOnChar '-' (toTraceParent (parseTraceParent ("00".data ++ '-' ::
      ("4bf92f3577b34da6a3ce929d0e0e4736".data ++ '-' ::
        ("00f067aa0ba902b7".data ++ '-' :: "01".data))) ent0)) =
      ["00".data, "4bf92f3577b34da6a3ce929d0e0e4736".data,
        bytesToHex ent0.r8, "01".data] :=
  C4_traceparent_roundtrip "00".data "4bf92f3577b34da6a3ce929d0e0e4736".data
    "00f067aa0ba902b7".data "01".data ent0 (by decide) (by decide) (by decide)
    (by decide)

/-- C5 (confirmed): on every malformed traceparent header (empty, wrong
segment count, non-hex characters or wrong segment lengths — exactly the
failure of `validTraceparentB`), `parseTraceParent` returns the freshly
generated context, whose traceId is 32 hex chars and spanId 16 hex chars.
Totality (never throws) holds by construction of the embedding: the body
contains no partial operation. -/
theorem C5_malformed_traceparent_fallback (header : JStr) (ent : Entropy)
    (hbad : validTraceparentB header = false)
    (h16 : ent.r16.length = 16) (h8 : ent.r8.length = 8) :
    parseTraceParent header ent = generateNew false ent ∧
    hexRunB 32 (parseTraceParent header ent).traceId = true ∧
    hexRunB 16 (parseTraceParent header ent).spanId = true := by
  have heq : parseTraceParent header ent = generateNew false ent := by
    unfold parseTraceParent
    split
    · rfl
    · unfold validTraceparentB at hbad
      split
      · rename_i v t s f hmatch
        rw [hmatch] at hbad
        simp only [] at hbad
        rw [if_neg]
        simp [hbad]
      · rfl
  refine ⟨heq, ?_, ?_⟩
  · rw [heq]
    exact generateNew_w3c_traceId ent h16
  · rw [heq]
    exact generateNew_w3c_spanId ent h8

theorem C5_malformed_traceparent_fallback_witness :
    parseTraceParent "not-a-valid-header".data ent0 = generateNew false ent0 ∧
    hexRunB 32 (parseTraceParent "not-a-valid-header".data ent0).traceId = true ∧
    hexRunB 16 (parseTraceParent "not-a-valid-header".data ent0).spanId = true :=
  C5_malformed_traceparent_fallback "not-a-valid-header".data ent0
    (by decide) (by decide) (by decide)

/-! ### JavaScript values (for the sanitizer and formatter)

`JsValue` models the JavaScript values flowing through `sanitizeBody` and
`formatAwsLog`: JSON-style data plus `undefined`.  Objects are ordered
association lists (JS own-property enumeration order).  Numbers carry their
lexeme: the code never inspects a number beyond truthiness and property-key
lookup, so no floating-point semantics is needed. -/

inductive JsValue where
  | vNull
  | vUndefined
  | vBool (b : Bool)
  | vNum (lexeme : JStr)
  | vStr (s : JStr)
  | vArr (items : List JsValue)
  | vObj (entries : List (JStr × JsValue))
deriving Repr

/-- A number lexeme denoting zero: no nonzero digit in the mantissa
(float underflow to zero is not modelled; number truthiness is never
load-bearing in the verified properties). -/
def numLexemeZeroB (s : JStr) : Bool :=
  (s.takeWhile (fun c => !(c = 'e' || c = 'E'))).all
    (fun c => !(isDigitB c) || c = '0')

/-- JavaScript truthiness. -/
def jsTruthy : JsValue → Bool
  | .vNull => false
  | .vUndefined => false
  | .vBool b => b
  | .vNum lex => !(numLexemeZeroB lex)
  | .vStr s => !(s.isEmpty)
  | .vArr _ => true
  | .vObj _ => true

/-- `typeof v === 'object'` (true for `null`, arrays and objects). -/
def jsTypeofObjectB : JsValue → Bool
  | .vNull => true
  | .vArr _ => true
  | .vObj _ => true
  | _ => false

/-- `typeof v === 'string'`. -/
def isStrB : JsValue → Bool
  | .vStr _ => true
  | _ => false

/-! ### The regex matchers of src/utils/sanitizers.js (PATTERNS)

Each `test` call is embedded as a Boolean matcher with the existential-match
semantics of `RegExp.prototype.test`: the matcher is true iff some substring
decomposition satisfies the pattern, with JS `\b` word-boundary semantics at
the pattern's boundary assertions. -/

/-- ASCII alphanumeric character. -/
def isAlnumB (c : Char) : Bool :=
  isDigitB c || decide (97 ≤ c.toNat ∧ c.toNat ≤ 122) ||
  decide (65 ≤ c.toNat ∧ c.toNat ≤ 90)

/-- `\b` before a word character: position 0 or a non-word character before. -/
def nonWordPrevB (prev : Option Char) : Bool :=
  match prev with
  | none => true
  | some p => !isWordCharB p

/-- Consume exactly `n` chars of class `\d`. -/
def digitsN (n : Nat) (s : JStr) : Option JStr :=
  if (s.take n).length = n && (s.take n).all isDigitB then some (s.drop n)
  else none

/-- Consume one optional separator (`[- ]?` when `allowSpace`, else `[-]?`).
The separator characters are not digits, so consuming the separator exactly
when it is present is the only path on which the rest of the pattern can
match; the regex's backtracking adds no further matches. -/
def sepOpt (allowSpace : Bool) : JStr → JStr
  | [] => []
  | c :: r => if c = '-' || (allowSpace && c = ' ') then r else c :: r

/-- `\b` after the last consumed character: end of input or a non-word
character next (the last pattern character is a digit, hence a word char). -/
def wordEndB : JStr → Bool
  | [] => true
  | c :: _ => !isWordCharB c

/-- The credit-card pattern `\d{4}[- ]?\d{4}[- ]?\d{4}[- ]?\d{4}\b`
anchored at the current position. -/
def ccAtB (s : JStr) : Bool :=
  match digitsN 4 s with
  | none => false
  | some r1 =>
    match digitsN 4 (sepOpt true r1) with
    | none => false
    | some r2 =>
      match digitsN 4 (sepOpt true r2) with
      | none => false
      | some r3 =>
        match digitsN 4 (sepOpt true r3) with
        | none => false
        | some r4 => wordEndB r4

/-- The SSN pattern `\d{3}[-]?\d{2}[-]?\d{4}\b` anchored at the current
position. -/
def ssnAtB (s : JStr) : Bool :=
  match digitsN 3 s with
  | none => false
  | some r1 =>
    match digitsN 2 (sepOpt false r1) with
    | none => false
    | some r2 =>
      match digitsN 4 (sepOpt false r2) with
      | none => false
      | some r3 => wordEndB r3

/-- Search every position whose predecessor makes `\b` hold before a word
character, testing the positional matcher there. -/
def searchWordStart (atB : JStr → Bool) : Option Char → JStr → Bool
  | _, [] => false
  | prev, c :: r =>
    (nonWordPrevB prev && atB (c :: r)) || searchWordStart atB (some c) r

/-- `PATTERNS.CREDIT_CARD.test(s)`. -/
def ccTestB (s : JStr) : Bool := searchWordStart ccAtB none s

/-- `PATTERNS.SSN.test(s)`. -/
def ssnTestB (s : JStr) : Bool := searchWordStart ssnAtB none s

/-- The local-part class `[A-Za-z0-9._%+-]` of the email pattern. -/
def isEmailLocalB (c : Char) : Bool :=
  isAlnumB c || c = '.' || c = '_' || c = '%' || c = '+' || c = '-'

/-- The domain class `[A-Za-z0-9.-]` of the email pattern. -/
def isEmailDomB (c : Char) : Bool := isAlnumB c || c = '.' || c = '-'

/-- The final class `[A-Z|a-z]` of the email pattern (the `|` inside a
character class is a literal). -/
def isEmailTldB (c : Char) : Bool :=
  decide (97 ≤ c.toNat ∧ c.toNat ≤ 122) || decide (65 ≤ c.toNat ∧ c.toNat ≤ 90) ||
  c = '|'

/-- `\b` between the previous character and the first matched character:
their word-character status must differ (start of input counts as
non-word). -/
def emailStartBoundaryB (prev : Option Char) (c : Char) : Bool :=
  match prev with
  | none => isWordCharB c
  | some p => isWordCharB p != isWordCharB c

/-- `\b` between the last matched character and the rest of the input. -/
def emailEndBoundaryB (l : Char) : JStr → Bool
  | [] => isWordCharB l
  | c :: _ => isWordCharB l != isWordCharB c

/-- After two final-class chars: stop with a `\b`, or extend `{2,}`. -/
def emailTldMore (last : Char) : JStr → Bool
  | [] => emailEndBoundaryB last []
  | c :: r =>
    emailEndBoundaryB last (c :: r) || (isEmailTldB c && emailTldMore c r)

/-- `[A-Z|a-z]{2,}\b` at the current position. -/
def emailTld2 : JStr → Bool
  | c1 :: c2 :: r => isEmailTldB c1 && isEmailTldB c2 && emailTldMore c2 r
  | _ => false

/-- After at least one domain char: a literal `.` followed by the final
class, or one more domain char (all decompositions are tried). -/
def emailAfterDom : JStr → Bool
  | [] => false
  | c :: r => (c = '.' && emailTld2 r) || (isEmailDomB c && emailAfterDom r)

/-- `[A-Za-z0-9.-]+\.[A-Z|a-z]{2,}\b` at the current position. -/
def emailDomPart : JStr → Bool
  | [] => false
  | c :: r => isEmailDomB c && emailAfterDom r

/-- After at least one local char: `@` followed by the domain part, or one
more local char. -/
def emailAfterLocal : JStr → Bool
  | [] => false
  | c :: r => (c = '@' && emailDomPart r) || (isEmailLocalB c && emailAfterLocal r)

/-- The email pattern anchored at the current position. -/
def emailAtB : Option Char → JStr → Bool
  | _, [] => false
  | prev, c :: r => emailStartBoundaryB prev c && isEmailLocalB c && emailAfterLocal r

/-- `PATTERNS.EMAIL.test(s)`: search all positions. -/
def emailSearchGo : Option Char → JStr → Bool
  | _, [] => false
  | prev, c :: r => emailAtB prev (c :: r) || emailSearchGo (some c) r

/-- `PATTERNS.EMAIL.test(s)`. -/
def emailTestB (s : JStr) : Bool := emailSearchGo none s

/-- The base64 character class `[A-Za-z0-9+/]`. -/
def isB64CharB (c : Char) : Bool := isAlnumB c || c = '+' || c = '/'

/-- `PATTERNS.BASE64_GENERIC.test(s)` for the anchored regex
`(?:[A-Za-z0-9+\/]{4}){10,}(?:[A-Za-z0-9+\/]{2}==|[A-Za-z0-9+\/]{3}=)?`:
the blocks part has length `4k` with `k >= 10`, and the optional tail is 4
characters (`xx==` or `xxx=`), so a match is: length a multiple of 4, at
least 40, and either all chars in the class, or length at least 44 with an
`==` tail after class chars, or a `=` tail after class chars. -/
def base64GenericTestB (s : JStr) : Bool :=
  decide (s.length % 4 = 0) &&
  ((decide (40 ≤ s.length) && s.all isB64CharB) ||
   (decide (44 ≤ s.length) && (s.take (s.length - 2)).all isB64CharB &&
     s.drop (s.length - 2) == ['=', '=']) ||
   (decide (44 ≤ s.length) && (s.take (s.length - 1)).all isB64CharB &&
     s.drop (s.length - 1) == ['=']))

/-- The tail class `[^"'\s)]` of the base64-image pattern. -/
def b64ImgTailOkB (c : Char) : Bool :=
  !(c = '"' || c = '\'' || c = ')' || jsWsB c)

/-- Scan `[^;]+;base64,[^"'\s)]+$`: the `[^;]+` block cannot contain `;`,
so the separator is the first `;`. -/
def b64ImgAfter : JStr → Bool
  | [] => false
  | c :: r =>
    if c = ';' then
      startsWithB "base64,".data r &&
        !((r.drop 7).isEmpty) && (r.drop 7).all b64ImgTailOkB
    else b64ImgAfter r

/-- `PATTERNS.BASE64_IMAGE.test(s)` for the anchored regex
`data:image\/[^;]+;base64,[^"'\s)]+`. -/
def base64ImageTestB (s : JStr) : Bool :=
  startsWithB "data:image/".data s &&
  (match s.drop 11 with
   | [] => false
   | c :: r => !(c = ';') && b64ImgAfter r)

/-- Case-insensitive anchored comparison against a lower-case pattern. -/
def startsWithCIB : JStr → JStr → Bool
  | [], _ => true
  | _ :: _, [] => false
  | p :: ps, c :: cs => (p == toLowerChar c) && startsWithCIB ps cs

/-- `($|\?)` after an image extension. -/
def afterExtOkB : JStr → Bool
  | [] => true
  | c :: _ => c = '?'

/-- `\.(jpe?g|png|gif|svg|webp|bmp|ico)($|\?)` anchored at the position. -/
def imageUrlAtB : JStr → Bool
  | '.' :: r =>
    ["jpg", "jpeg", "png", "gif", "svg", "webp", "bmp", "ico"].any
      (fun e => startsWithCIB e.data r && afterExtOkB (r.drop e.length))
  | _ => false

/-- `PATTERNS.IMAGE_URL.test(s)`: search every position. -/
def imageUrlTestB : JStr → Bool
  | [] => false
  | c :: r => imageUrlAtB (c :: r) || imageUrlTestB r

/-! ### Redaction markers and the sanitizer (src/utils/sanitizers.js) -/

/-- The fixed redaction marker for sensitive keys. -/
def redactedMarker : JStr := "[REDACTED]".data

/-- Marker for image data (key hint or data-URI). -/
def imageDataMarker : JStr := "[IMAGE DATA REDACTED]".data

/-- Marker for generic base64 data in `sanitizeValue`. -/
def base64DataMarker : JStr := "[BASE64 DATA REDACTED]".data

/-- Marker for credit-card matches. -/
def creditCardMarker : JStr := "[CREDIT CARD REDACTED]".data

/-- Marker for SSN matches. -/
def ssnMarker : JStr := "[SSN REDACTED]".data

/-- Marker for email matches. -/
def emailMarker : JStr := "[EMAIL REDACTED]".data

/-- Marker for base64 data in `sanitizeImageData`. -/
def base64Marker : JStr := "[BASE64 REDACTED]".data

/-- Marker for image URLs in `sanitizeImageData`. -/
def imageUrlMarker : JStr := "[IMAGE URL REDACTED]".data

/-- The depth-limit marker of `sanitizeBody`. -/
def maxDepthMarker : JStr := "[MAX DEPTH EXCEEDED]".data

/-- `(len / 1024).toFixed(0)`: the length in KB rounded to the nearest
integer (ties away from zero; `len / 1024` and the `+ 0.5` are exact in
binary floating point for the string lengths realisable in JS, so this is
`floor((len + 512) / 1024)`). -/
def kbRounded (len : Nat) : JStr := natDecimal ((len + 512) / 1024)

/-- The `[LARGE IMAGE DATA - <n>KB]` marker. -/
def largeImageDataMarker (len : Nat) : JStr :=
  "[LARGE IMAGE DATA - ".data ++ kbRounded len ++ "KB]".data

/-- The `[LARGE BASE64 DATA - <n>KB]` marker. -/
def largeBase64DataMarker (len : Nat) : JStr :=
  "[LARGE BASE64 DATA - ".data ++ kbRounded len ++ "KB]".data

/-- The `[LARGE STRING - <n>KB]` marker. -/
def largeStringMarker (len : Nat) : JStr :=
  "[LARGE STRING - ".data ++ kbRounded len ++ "KB]".data

/-- The default sensitive-field set of src/config/constants.js
(`DEFAULT_SENSITIVE_FIELDS`); sets of strings are modelled as lists with
`contains` as the membership test. -/
def defaultSensitiveFields : List JStr :=
  ["password", "token", "authorization", "key", "secret", "credential",
   "creditcard", "credit_card", "cardnumber", "apikey", "phone", "email",
   "dob", "birth", "social"].map String.data

/-- `sanitizeImageData(value)` of src/utils/sanitizers.js.  The memoization
cache stores only the function's own pure result and is semantically
transparent, so it is not modelled. -/
def sanitizeImageData (value : JsValue) : JsValue :=
  match value with
  | .vStr s =>
    if 10000 < s.length then .vStr (largeBase64DataMarker s.length)
    else if 100 < s.length then
      if base64ImageTestB s || base64GenericTestB s then .vStr base64Marker
      else if imageUrlTestB s then .vStr imageUrlMarker
      else .vStr s
    else .vStr s
  | v => v

/-- The key hint `keyLower.includes('image') || keyLower.includes('attachment')
|| keyLower.includes('content')` of the large-string branch. -/
def keyHintB (keyLower : JStr) : Bool :=
  includesB "image".data keyLower || includesB "attachment".data keyLower ||
  includesB "content".data keyLower

/-- `sanitizeValue(key, value, sensitiveFields)` of src/utils/sanitizers.js. -/
def sanitizeValue (key : JStr) (value : JsValue) (sensitiveFields : List JStr) :
    JsValue :=
  if sensitiveFields.contains (toLowerL key) then .vStr redactedMarker
  else if !(jsTruthy value) || !(isStrB value) then value
  else
    match value with
    | .vStr s =>
      if 10000 < s.length then
        if keyHintB (toLowerL key) || startsWithB "data:image/".data s then
          .vStr (if includesB "image".data (toLowerL key) then
            largeImageDataMarker s.length else largeBase64DataMarker s.length)
        else .vStr (largeStringMarker s.length)
      else if 100 < s.length then
        if includesB "image".data (toLowerL key) ||
           startsWithB "data:image/".data s then .vStr imageDataMarker
        else if base64GenericTestB s then .vStr base64DataMarker
        else if ccTestB s then .vStr creditCardMarker
        else if ssnTestB s then .vStr ssnMarker
        else if emailTestB s then .vStr emailMarker
        else sanitizeImageData (.vStr s)
      else sanitizeImageData (.vStr s)
    | v => v

/-- C7 (confirmed): when the lower-cased key is in the sensitive-field set,
`sanitizeValue` returns exactly `[REDACTED]`, whatever the value is. -/
theorem C7_sensitive_key_redacted (key : JStr) (value : JsValue)
    (sensitiveFields : List JStr)
    (h : sensitiveFields.contains (toLowerL key) = true) :
    sanitizeValue key value sensitiveFields = .vStr redactedMarker := by
  unfold sanitizeValue
  rw [if_pos h]

theorem C7_sensitive_key_redacted_witness :
    sanitizeValue "Password".data (.vObj [("x".data, .vNum "1".data)])
      defaultSensitiveFields = .vStr redactedMarker :=
  C7_sensitive_key_redacted "Password".data _ defaultSensitiveFields (by decide)

theorem sanitizeValue_longStr (key s : JStr) (S : List JStr)
    (hns : S.contains (toLowerL key) = false)
    (h100 : 100 < s.length) (h10k : s.length ≤ 10000) :
    sanitizeValue key (.vStr s) S =
      (if includesB "image".data (toLowerL key) ||
          startsWithB "data:image/".data s then .vStr imageDataMarker
       else if base64GenericTestB s then .vStr base64DataMarker
       else if ccTestB s then .vStr creditCardMarker
       else if ssnTestB s then .vStr ssnMarker
       else if emailTestB s then .vStr emailMarker
       else sanitizeImageData (.vStr s)) := by
  have hne : s ≠ [] := by
    intro h
    rw [h] at h100
    simp at h100
  unfold sanitizeValue
  rw [if_neg (by rw [hns]; exact Bool.false_ne_true)]
  rw [if_neg (by simp [jsTruthy, isStrB, List.isEmpty_iff, hne])]
  simp only []
  rw [if_neg (by omega), if_pos h100]

/-- C1 (corrected): pattern-based redaction in `sanitizeValue` applies only
to strings of length in (100, 10000]; within that range, for a key outside
the sensitive set, the checks run in the code's order — image key-hint or
`data:image/` first, then generic base64, credit card, SSN, email — and the
first hit yields its typed marker. -/
theorem C1_pattern_order_amended (key s : JStr) (S : List JStr)
    (hns : S.contains (toLowerL key) = false)
    (h100 : 100 < s.length) (h10k : s.length ≤ 10000) :
    ((includesB "image".data (toLowerL key) ||
        startsWithB "data:image/".data s) = true →
      sanitizeValue key (.vStr s) S = .vStr imageDataMarker) ∧
    ((includesB "image".data (toLowerL key) ||
        startsWithB "data:image/".data s) = false →
      base64GenericTestB s = true →
      sanitizeValue key (.vStr s) S = .vStr base64DataMarker) ∧
    ((includesB "image".data (toLowerL key) ||
        startsWithB "data:image/".data s) = false →
      base64GenericTestB s = false → ccTestB s = true →
      sanitizeValue key (.vStr s) S = .vStr creditCardMarker) ∧
    ((includesB "image".data (toLowerL key) ||
        startsWithB "data:image/".data s) = false →
      base64GenericTestB s = false → ccTestB s = false → ssnTestB s = true →
      sanitizeValue key (.vStr s) S = .vStr ssnMarker) ∧
    ((includesB "image".data (toLowerL key) ||
        startsWithB "data:image/".data s) = false →
      base64GenericTestB s = false → ccTestB s = false → ssnTestB s = false →
      emailTestB s = true →
      sanitizeValue key (.vStr s) S = .vStr emailMarker) := by
  have hred := sanitizeValue_longStr key s S hns h100 h10k
  refine ⟨?_, ?_, ?_, ?_, ?_⟩
  · intro h1
    rw [hred, if_pos h1]
  · intro h1 h2
    rw [hred, if_neg (by simp [h1]), if_pos h2]
  · intro h1 h2 h3
    rw [hred, if_neg (by simp [h1]), if_neg (by simp [h2]), if_pos h3]
  · intro h1 h2 h3 h4
    rw [hred, if_neg (by simp [h1]), if_neg (by simp [h2]),
        if_neg (by simp [h3]), if_pos h4]
  · intro h1 h2 h3 h4 h5
    rw [hred, if_neg (by simp [h1]), if_neg (by simp [h2]),
        if_neg (by simp [h3]), if_neg (by simp [h4]), if_pos h5]

/-- A 110-character string (90 filler chars and a credit-card number) used
by the C1 witness. -/
def longCardStr : JStr := List.replicate 90 'x' ++ " 4111-1111-1111-1111".data

theorem C1_pattern_order_amended_witness :
    sanitizeValue "notes".data (.vStr longCardStr) defaultSensitiveFields =
      .vStr creditCardMarker :=
  (C1_pattern_order_amended "notes".data longCardStr defaultSensitiveFields
    (by decide) (by decide) (by decide)).2.2.1 (by decide) (by decide) (by decide)

/-- C1 counterexample: the credit-card string `4111-1111-1111-1111` is well
within the claimed 10240-character threshold and matches the credit-card
pattern under a non-sensitive key, yet `sanitizeValue` returns it UNCHANGED
(pattern redaction only fires for strings longer than 100 characters), not
the typed marker `[CREDIT CARD REDACTED]` the claim requires. -/
theorem C1_counterexample :
    defaultSensitiveFields.contains (toLowerL "note".data) = false ∧
    ("4111-1111-1111-1111".data).length ≤ 10240 ∧
    ccTestB "4111-1111-1111-1111".data = true ∧
    sanitizeValue "note".data (.vStr "4111-1111-1111-1111".data)
      defaultSensitiveFields = .vStr "4111-1111-1111-1111".data ∧
    "4111-1111-1111-1111".data ≠ creditCardMarker :=
  ⟨by decide, by decide, by decide, rfl, by decide⟩

/-! ### JSON.parse (used by tryParseJson in src/utils/sanitizers.js)

`JSON.parse` is embedded as a recursive-descent parser over `List Char`.
The parser is fuel-indexed to be structurally recursive; `tryParseJson`
supplies fuel `2 * length + 4`, which the consumption argument below shows
is always sufficient (every two levels of recursion consume at least one
character).  Surrogate-pair escapes decode to the replacement of
`Char.ofNat` (JSON input with astral characters is out of scope; nothing
verified depends on it). -/

mutual

/-- A size measure on values: strings count their length, every node counts
itself.  A JSON text denoting a value is always at least as long as the
value's size (each element costs its size plus syntax overhead). -/
def szV : JsValue → Nat
  | .vNull => 1
  | .vUndefined => 1
  | .vBool _ => 1
  | .vNum _ => 1
  | .vStr s => s.length + 1
  | .vArr l => 1 + szL l
  | .vObj l => 1 + szO l

/-- Size of an array's element list (one extra per element). -/
def szL : List JsValue → Nat
  | [] => 0
  | v :: t => szV v + szL t + 1

/-- Size of an object's entry list (keys are free; one extra per entry). -/
def szO : List (JStr × JsValue) → Nat
  | [] => 0
  | (_, v) :: t => szV v + szO t + 1

end

/-- JSON whitespace (the only four characters `JSON.parse` skips). -/
def isJsonWsB (c : Char) : Bool :=
  c = ' ' || c = '\t' || c = '\n' || c = '\r'

/-- Skip JSON whitespace. -/
def skipWs (cs : JStr) : JStr := cs.dropWhile isJsonWsB

/-- Single-character JSON string escapes. -/
def pEscChar (c : Char) : Option Char :=
  match c with
  | '"' => some '"'
  | '\\' => some '\\'
  | '/' => some '/'
  | 'b' => some (Char.ofNat 8)
  | 'f' => some (Char.ofNat 12)
  | 'n' => some '\n'
  | 'r' => some '\r'
  | 't' => some '\t'
  | _ => none

/-- Value of a hex digit, any case. -/
def hexVal (c : Char) : Option Nat :=
  if 48 ≤ c.toNat ∧ c.toNat ≤ 57 then some (c.toNat - 48)
  else if 97 ≤ c.toNat ∧ c.toNat ≤ 102 then some (c.toNat - 87)
  else if 65 ≤ c.toNat ∧ c.toNat ≤ 70 then some (c.toNat - 55)
  else none

/-- Parse the body of a JSON string (after the opening quote): returns the
decoded content and the input after the closing quote. -/
def pString : JStr → Option (JStr × JStr)
  | [] => none
  | '"' :: rest => some ([], rest)
  | '\\' :: 'u' :: h1 :: h2 :: h3 :: h4 :: rest =>
    (match hexVal h1, hexVal h2, hexVal h3, hexVal h4 with
     | some a, some b, some c, some d =>
       match pString rest with
       | some (s, r) =>
         some (Char.ofNat (((a * 16 + b) * 16 + c) * 16 + d) :: s, r)
       | none => none
     | _, _, _, _ => none)
  | '\\' :: e :: rest =>
    (match pEscChar e with
     | some c =>
       match pString rest with
       | some (s, r) => some (c :: s, r)
       | none => none
     | none => none)
  | c :: rest =>
    if c.toNat < 32 then none
    else
      match pString rest with
      | some (s, r) => some (c :: s, r)
      | none => none

/-- The JSON integer part: `0`, or a nonzero digit followed by digits. -/
def pInt : JStr → Option (JStr × JStr)
  | [] => none
  | '0' :: r => some (['0'], r)
  | c :: r =>
    if isDigitB c then some (c :: r.takeWhile isDigitB, r.dropWhile isDigitB)
    else none

/-- The optional JSON fraction part: nothing, or `.` and at least one digit. -/
def pFrac : JStr → Option (JStr × JStr)
  | '.' :: r =>
    if (r.takeWhile isDigitB).isEmpty then none
    else some ('.' :: r.takeWhile isDigitB, r.dropWhile isDigitB)
  | s => some ([], s)

/-- The optional JSON exponent part. -/
def pExp : JStr → Option (JStr × JStr)
  | [] => some ([], [])
  | c :: r =>
    if c = 'e' || c = 'E' then
      match r with
      | s :: r2 =>
        if s = '+' || s = '-' then
          if (r2.takeWhile isDigitB).isEmpty then none
          else some (c :: s :: r2.takeWhile isDigitB, r2.dropWhile isDigitB)
        else
          if (r.takeWhile isDigitB).isEmpty then none
          else some (c :: r.takeWhile isDigitB, r.dropWhile isDigitB)
      | [] => none
    else some ([], c :: r)

/-- Parse a JSON number at the current position, returning its lexeme. -/
def pNumber (cs : JStr) : Option (JStr × JStr) :=
  match cs with
  | '-' :: r =>
    (match pInt r with
     | none => none
     | some (i, r1) =>
       match pFrac r1 with
       | none => none
       | some (f, r2) =>
         match pExp r2 with
         | none => none
         | some (e, r3) => some ('-' :: (i ++ f ++ e), r3))
  | _ =>
    match pInt cs with
    | none => none
    | some (i, r1) =>
      match pFrac r1 with
      | none => none
      | some (f, r2) =>
        match pExp r2 with
        | none => none
        | some (e, r3) => some (i ++ f ++ e, r3)

/-- Re-assigning a field of an object (update in place, else append): the
semantics of JS property assignment, also used for duplicate keys in
`JSON.parse` (last value wins, first position kept). -/
def setFieldE (entries : List (JStr × JsValue)) (k : JStr) (v : JsValue) :
    List (JStr × JsValue) :=
  match entries with
  | [] => [(k, v)]
  | (k', v') :: t => if k' = k then (k', v) :: t else (k', v') :: setFieldE t k v

/-- Build an object from parsed member entries with JS duplicate-key
semantics. -/
def objFromEntries (l : List (JStr × JsValue)) : List (JStr × JsValue) :=
  l.foldl (fun acc kv => setFieldE acc kv.1 kv.2) []

mutual

/-- Parse one JSON value (leading whitespace skipped here). -/
def pVal : Nat → JStr → Option (JsValue × JStr)
  | 0, _ => none
  | fuel + 1, cs =>
    match skipWs cs with
    | 'n' :: 'u' :: 'l' :: 'l' :: rest => some (.vNull, rest)
    | 't' :: 'r' :: 'u' :: 'e' :: rest => some (.vBool true, rest)
    | 'f' :: 'a' :: 'l' :: 's' :: 'e' :: rest => some (.vBool false, rest)
    | '"' :: rest =>
      (match pString rest with
       | some (s, r) => some (.vStr s, r)
       | none => none)
    | '[' :: rest =>
      (match skipWs rest with
       | ']' :: r2 => some (.vArr [], r2)
       | _ =>
         match pArrItems fuel rest with
         | some (l, r) => some (.vArr l, r)
         | none => none)
    | '{' :: rest =>
      (match skipWs rest with
       | '}' :: r2 => some (.vObj [], r2)
       | _ =>
         match pObjItems fuel rest with
         | some (l, r) => some (.vObj (objFromEntries l), r)
         | none => none)
    | cs' =>
      match pNumber cs' with
      | some (lex, r) => some (.vNum lex, r)
      | none => none

/-- Parse `element (, element)* ]` after the opening bracket. -/
def pArrItems : Nat → JStr → Option (List JsValue × JStr)
  | 0, _ => none
  | fuel + 1, cs =>
    match pVal fuel cs with
    | none => none
    | some (v, r) =>
      match skipWs r with
      | ',' :: r2 =>
        (match pArrItems fuel r2 with
         | none => none
         | some (l, r3) => some (v :: l, r3))
      | ']' :: r2 => some ([v], r2)
      | _ => none

/-- Parse `member (, member)* \x7d` after the opening brace. -/
def pObjItems : Nat → JStr → Option (List (JStr × JsValue) × JStr)
  | 0, _ => none
  | fuel + 1, cs =>
    match skipWs cs with
    | '"' :: r =>
      (match pString r with
       | none => none
       | some (k, r2) =>
         match skipWs r2 with
         | ':' :: r3 =>
           (match pVal fuel r3 with
            | none => none
            | some (v, r4) =>
              match skipWs r4 with
              | ',' :: r5 =>
                (match pObjItems fuel r5 with
                 | none => none
                 | some (l, r6) => some ((k, v) :: l, r6))
              | '}' :: r5 => some ([(k, v)], r5)
              | _ => none)
         | _ => none)
    | _ => none

end

/-- `tryParseJson(str)` of src/utils/sanitizers.js: trim, quick check that
the text starts with a brace or bracket, then `JSON.parse` (null on any
parse error, including trailing garbage). -/
def tryParseJson (s : JStr) : Option JsValue :=
  if startsWithB ['{'] (jsTrim s) || startsWithB ['['] (jsTrim s) then
    match pVal (2 * (jsTrim s).length + 4) (jsTrim s) with
    | some (v, r) => if (skipWs r).isEmpty then some v else none
    | none => none
  else none

theorem pString_szAux (n : Nat) : ∀ cs : JStr, cs.length ≤ n →
    ∀ s r, pString cs = some (s, r) → s.length + 1 + r.length ≤ cs.length := by
  induction n with
  | zero =>
    intro cs hlen s r h
    have : cs = [] := List.eq_nil_of_length_eq_zero (by omega)
    subst this
    simp [pString] at h
  | succ n ih =>
    intro cs hlen s r h
    rw [pString.eq_def] at h
    split at h
    · simp at h
    · rename_i rest
      simp only [Option.some.injEq, Prod.mk.injEq] at h
      obtain ⟨rfl, rfl⟩ := h
      simp
      omega
    · rename_i h1 h2 h3 h4 rest
      split at h
      · rename_i a b c d ha hb hc hd
        split at h
        · rename_i s' r' hrec
          simp only [Option.some.injEq, Prod.mk.injEq] at h
          obtain ⟨rfl, rfl⟩ := h
          have hrest := ih rest (by simp at hlen; omega) s' r' hrec
          simp
          omega
        · simp at h
      · simp at h
    · rename_i e rest hne
      split at h
      · rename_i c hesc
        split at h
        · rename_i s' r' hrec
          simp only [Option.some.injEq, Prod.mk.injEq] at h
          obtain ⟨rfl, rfl⟩ := h
          have hrest := ih rest (by simp at hlen; omega) s' r' hrec
          simp
          omega
        · simp at h
      · simp at h
    · rename_i c rest hq hu2 he
      split at h
      · simp at h
      · split at h
        · rename_i s' r' hrec
          simp only [Option.some.injEq, Prod.mk.injEq] at h
          obtain ⟨rfl, rfl⟩ := h
          have hrest := ih rest (by simp at hlen; omega) s' r' hrec
          simp
          omega
        · simp at h

theorem pString_sz {cs s r : JStr} (h : pString cs = some (s, r)) :
    s.length + 1 + r.length ≤ cs.length :=
  pString_szAux cs.length cs le_rfl s r h

theorem skipWs_length (cs : JStr) : (skipWs cs).length ≤ cs.length :=
  (List.dropWhile_sublist _).length_le

theorem jsTrim_length (s : JStr) : (jsTrim s).length ≤ s.length := by
  unfold jsTrim
  calc ((s.dropWhile jsWsB).reverse.dropWhile jsWsB).reverse.length
      = ((s.dropWhile jsWsB).reverse.dropWhile jsWsB).length := by
        rw [List.length_reverse]
    _ ≤ (s.dropWhile jsWsB).reverse.length := (List.dropWhile_sublist _).length_le
    _ = (s.dropWhile jsWsB).length := by rw [List.length_reverse]
    _ ≤ s.length := (List.dropWhile_sublist _).length_le

theorem pInt_sz {cs lex r : JStr} (h : pInt cs = some (lex, r)) :
    r.length < cs.length := by
  rw [pInt.eq_def] at h
  split at h
  · simp at h
  · simp only [Option.some.injEq, Prod.mk.injEq] at h
    obtain ⟨rfl, rfl⟩ := h
    simp
  · split at h
    · simp only [Option.some.injEq, Prod.mk.injEq] at h
      obtain ⟨rfl, rfl⟩ := h
      rename_i c rest _ _
      have := (List.dropWhile_sublist (l := rest) isDigitB).length_le
      simp
      omega
    · simp at h

theorem pFrac_sz {cs lex r : JStr} (h : pFrac cs = some (lex, r)) :
    r.length ≤ cs.length := by
  rw [pFrac.eq_def] at h
  split at h
  · split at h
    · simp at h
    · simp only [Option.some.injEq, Prod.mk.injEq] at h
      obtain ⟨rfl, rfl⟩ := h
      rename_i rest _
      have := (List.dropWhile_sublist (l := rest) isDigitB).length_le
      simp
      omega
  · simp only [Option.some.injEq, Prod.mk.injEq] at h
    obtain ⟨rfl, rfl⟩ := h
    exact le_rfl

theorem pExp_sz {cs lex r : JStr} (h : pExp cs = some (lex, r)) :
    r.length ≤ cs.length := by
  rw [pExp.eq_def] at h
  split at h
  · simp only [Option.some.injEq, Prod.mk.injEq] at h
    obtain ⟨rfl, rfl⟩ := h
    exact le_rfl
  · rename_i c rest
    split at h
    · split at h
      · rename_i s r2
        split at h
        · split at h
          · simp at h
          · simp only [Option.some.injEq, Prod.mk.injEq] at h
            obtain ⟨rfl, rfl⟩ := h
            have := (List.dropWhile_sublist (l := r2) isDigitB).length_le
            simp
            omega
        · split at h
          · simp at h
          · simp only [Option.some.injEq, Prod.mk.injEq] at h
            obtain ⟨rfl, rfl⟩ := h
            have := (List.dropWhile_sublist (l := s :: r2) isDigitB).length_le
            simp at this ⊢
            omega
      · simp at h
    · simp only [Option.some.injEq, Prod.mk.injEq] at h
      obtain ⟨rfl, rfl⟩ := h
      exact le_rfl

theorem pNumber_sz {cs lex r : JStr} (h : pNumber cs = some (lex, r)) :
    r.length < cs.length := by
  rw [pNumber.eq_def] at h
  split at h
  · rename_i rest
    split at h
    · simp at h
    · rename_i i r1 hi
      split at h
      · simp at h
      · rename_i f r2 hf
        split at h
        · simp at h
        · rename_i e r3 he
          simp only [Option.some.injEq, Prod.mk.injEq] at h
          obtain ⟨rfl, rfl⟩ := h
          have h1 := pInt_sz hi
          have h2 := pFrac_sz hf
          have h3 := pExp_sz he
          simp
          omega
  · split at h
    · simp at h
    · rename_i i r1 hi
      split at h
      · simp at h
      · rename_i f r2 hf
        split at h
        · simp at h
        · rename_i e r3 he
          simp only [Option.some.injEq, Prod.mk.injEq] at h
          obtain ⟨rfl, rfl⟩ := h
          have h1 := pInt_sz hi
          have h2 := pFrac_sz hf
          have h3 := pExp_sz he
          omega

theorem szO_setFieldE (entries : List (JStr × JsValue)) (k : JStr) (v : JsValue) :
    szO (setFieldE entries k v) ≤ szO entries + szV v + 1 := by
  induction entries with
  | nil =>
    simp [setFieldE, szO]
  | cons kv t ih =>
    obtain ⟨k', v'⟩ := kv
    rw [setFieldE]
    split
    · simp only [szO]
      omega
    · simp only [szO]
      omega

theorem szO_foldl_setFieldE (l : List (JStr × JsValue)) :
    ∀ acc, szO (l.foldl (fun acc kv => setFieldE acc kv.1 kv.2) acc) ≤
      szO acc + szO l := by
  induction l with
  | nil =>
    intro acc
    simp [szO]
  | cons kv t ih =>
    intro acc
    obtain ⟨k, v⟩ := kv
    simp only [List.foldl_cons]
    have h1 := ih (setFieldE acc k v)
    have h2 := szO_setFieldE acc k v
    simp only [szO]
    omega

theorem szO_objFromEntries (l : List (JStr × JsValue)) :
    szO (objFromEntries l) ≤ szO l := by
  have := szO_foldl_setFieldE l []
  simpa [objFromEntries, szO] using this

theorem pVal_succ_unfold (fuel : Nat) (cs : JStr) :
    pVal (fuel + 1) cs =
      (match skipWs cs with
       | 'n' :: 'u' :: 'l' :: 'l' :: rest => some (.vNull, rest)
       | 't' :: 'r' :: 'u' :: 'e' :: rest => some (.vBool true, rest)
       | 'f' :: 'a' :: 'l' :: 's' :: 'e' :: rest => some (.vBool false, rest)
       | '"' :: rest =>
         (match pString rest with
          | some (s, r) => some (.vStr s, r)
          | none => none)
       | '[' :: rest =>
         (match skipWs rest with
          | ']' :: r2 => some (.vArr [], r2)
          | _ =>
            match pArrItems fuel rest with
            | some (l, r) => some (.vArr l, r)
            | none => none)
       | '{' :: rest =>
         (match skipWs rest with
          | '}' :: r2 => some (.vObj [], r2)
          | _ =>
            match pObjItems fuel rest with
            | some (l, r) => some (.vObj (objFromEntries l), r)
            | none => none)
       | cs' =>
         match pNumber cs' with
         | some (lex, r) => some (.vNum lex, r)
         | none => none) := rfl

theorem pArrItems_succ_unfold (fuel : Nat) (cs : JStr) :
    pArrItems (fuel + 1) cs =
      (match pVal fuel cs with
       | none => none
       | some (v, r) =>
         match skipWs r with
         | ',' :: r2 =>
           (match pArrItems fuel r2 with
            | none => none
            | some (l, r3) => some (v :: l, r3))
         | ']' :: r2 => some ([v], r2)
         | _ => none) := rfl

theorem pObjItems_succ_unfold (fuel : Nat) (cs : JStr) :
    pObjItems (fuel + 1) cs =
      (match skipWs cs with
       | '"' :: r =>
         (match pString r with
          | none => none
          | some (k, r2) =>
            match skipWs r2 with
            | ':' :: r3 =>
              (match pVal fuel r3 with
               | none => none
               | some (v, r4) =>
                 match skipWs r4 with
                 | ',' :: r5 =>
                   (match pObjItems fuel r5 with
                    | none => none
                    | some (l, r6) => some ((k, v) :: l, r6))
                 | '}' :: r5 => some ([(k, v)], r5)
                 | _ => none)
            | _ => none)
       | _ => none) := rfl

theorem parser_sz (fuel : Nat) :
    (∀ cs v r, pVal fuel cs = some (v, r) → szV v + r.length ≤ cs.length) ∧
    (∀ cs l r, pArrItems fuel cs = some (l, r) → szL l + r.length ≤ cs.length) ∧
    (∀ cs l r, pObjItems fuel cs = some (l, r) → szO l + r.length ≤ cs.length) := by
  induction fuel with
  | zero =>
    refine ⟨?_, ?_, ?_⟩ <;> intro cs x r h <;>
      simp [pVal, pArrItems, pObjItems] at h
  | succ fuel ih =>
    obtain ⟨ihV, ihA, ihO⟩ := ih
    refine ⟨?_, ?_, ?_⟩
    · intro cs v r h
      have hskip := skipWs_length cs
      rw [pVal_succ_unfold] at h
      split at h
      · rename_i rest heq
        simp only [Option.some.injEq, Prod.mk.injEq] at h
        obtain ⟨rfl, rfl⟩ := h
        have hl := congrArg List.length heq
        simp only [List.length_cons] at hl
        simp only [szV]
        omega
      · rename_i rest heq
        simp only [Option.some.injEq, Prod.mk.injEq] at h
        obtain ⟨rfl, rfl⟩ := h
        have hl := congrArg List.length heq
        simp only [List.length_cons] at hl
        simp only [szV]
        omega
      · rename_i rest heq
        simp only [Option.some.injEq, Prod.mk.injEq] at h
        obtain ⟨rfl, rfl⟩ := h
        have hl := congrArg List.length heq
        simp only [List.length_cons] at hl
        simp only [szV]
        omega
      · rename_i rest heq
        split at h
        · rename_i s' r' hstr
          simp only [Option.some.injEq, Prod.mk.injEq] at h
          obtain ⟨rfl, rfl⟩ := h
          have h1 := pString_sz hstr
          have hl := congrArg List.length heq
          simp only [List.length_cons] at hl
          simp only [szV]
          omega
        · simp at h
      · rename_i rest heq
        have hl := congrArg List.length heq
        simp only [List.length_cons] at hl
        split at h
        · rename_i r2 heq2
          simp only [Option.some.injEq, Prod.mk.injEq] at h
          obtain ⟨rfl, rfl⟩ := h
          have hl2 := congrArg List.length heq2
          simp only [List.length_cons] at hl2
          have hs := skipWs_length rest
          simp only [szV, szL]
          omega
        · split at h
          · rename_i li r' harr
            simp only [Option.some.injEq, Prod.mk.injEq] at h
            obtain ⟨rfl, rfl⟩ := h
            have h1 := ihA _ _ _ harr
            simp only [szV]
            omega
          · simp at h
      · rename_i rest heq
        have hl := congrArg List.length heq
        simp only [List.length_cons] at hl
        split at h
        · rename_i r2 heq2
          simp only [Option.some.injEq, Prod.mk.injEq] at h
          obtain ⟨rfl, rfl⟩ := h
          have hl2 := congrArg List.length heq2
          simp only [List.length_cons] at hl2
          have hs := skipWs_length rest
          simp only [szV, szO]
          omega
        · split at h
          · rename_i le r' hobj
            simp only [Option.some.injEq, Prod.mk.injEq] at h
            obtain ⟨rfl, rfl⟩ := h
            have h1 := ihO _ _ _ hobj
            have h2 := szO_objFromEntries le
            simp only [szV]
            omega
          · simp at h
      · split at h
        · rename_i lex r' hnum
          simp only [Option.some.injEq, Prod.mk.injEq] at h
          obtain ⟨rfl, rfl⟩ := h
          have h1 := pNumber_sz hnum
          simp only [szV]
          omega
        · simp at h
    · intro cs l r h
      rw [pArrItems_succ_unfold] at h
      split at h
      · simp at h
      · rename_i v r0 hv
        have h1 := ihV _ _ _ hv
        have hs0 := skipWs_length r0
        split at h
        · rename_i r2 heq2
          have hl2 := congrArg List.length heq2
          simp only [List.length_cons] at hl2
          split at h
          · simp at h
          · rename_i li r3 harr
            simp only [Option.some.injEq, Prod.mk.injEq] at h
            obtain ⟨rfl, rfl⟩ := h
            have h2 := ihA _ _ _ harr
            simp only [szL]
            omega
        · rename_i r2 heq2
          have hl2 := congrArg List.length heq2
          simp only [List.length_cons] at hl2
          simp only [Option.some.injEq, Prod.mk.injEq] at h
          obtain ⟨rfl, rfl⟩ := h
          simp only [szL]
          omega
        · simp at h
    · intro cs l r h
      rw [pObjItems_succ_unfold] at h
      have hskip := skipWs_length cs
      split at h
      · rename_i r0 heq
        have hl0 := congrArg List.length heq
        simp only [List.length_cons] at hl0
        split at h
        · simp at h
        · rename_i k r2 hk
          have h1 := pString_sz hk
          have hs2 := skipWs_length r2
          split at h
          · rename_i r3 heq3
            have hl3 := congrArg List.length heq3
            simp only [List.length_cons] at hl3
            split at h
            · simp at h
            · rename_i v r4 hv
              have h2 := ihV _ _ _ hv
              have hs4 := skipWs_length r4
              split at h
              · rename_i r5 heq5
                have hl5 := congrArg List.length heq5
                simp only [List.length_cons] at hl5
                split at h
                · simp at h
                · rename_i li r6 hobj
                  simp only [Option.some.injEq, Prod.mk.injEq] at h
                  obtain ⟨rfl, rfl⟩ := h
                  have h3 := ihO _ _ _ hobj
                  simp only [szO]
                  omega
              · rename_i r5 heq5
                have hl5 := congrArg List.length heq5
                simp only [List.length_cons] at hl5
                simp only [Option.some.injEq, Prod.mk.injEq] at h
                obtain ⟨rfl, rfl⟩ := h
                simp only [szO]
                omega
              · simp at h
          · simp at h
      · simp at h

theorem tryParseJson_sz {s : JStr} {v : JsValue} (h : tryParseJson s = some v) :
    szV v < szV (.vStr s) := by
  unfold tryParseJson at h
  split at h
  · split at h
    · rename_i v' r hval
      split at h
      · simp only [Option.some.injEq] at h
        subst h
        have h1 := (parser_sz (2 * (jsTrim s).length + 4)).1 _ _ _ hval
        have h2 := jsTrim_length s
        simp only [szV]
        omega
      · simp at h
    · simp at h
  · simp at h

theorem szL_take (n : Nat) (l : List JsValue) : szL (l.take n) ≤ szL l := by
  induction l generalizing n with
  | nil => simp [szL]
  | cons v t ih =>
    cases n with
    | zero => simp [szL]
    | succ n =>
      simp only [List.take_succ_cons, szL]
      have := ih n
      omega

/-- The `CONTENT_LIMITS` of src/config/constants.js relevant to
`sanitizeBody` (`JSON_DEPTH`, `ARRAY_LENGTH`); configuration-dependent, so
passed explicitly. -/
structure ContentLimits where
  jsonDepth : Nat
  arrayLength : Nat
deriving Repr, DecidableEq

/-- The default limits: `LOG_JSON_DEPTH` 10, `LOG_ARRAY_LENGTH` 100. -/
def defaultLimits : ContentLimits := { jsonDepth := 10, arrayLength := 100 }

mutual

/-- `sanitizeBody(obj, sensitiveFields, depth)` of src/utils/sanitizers.js
(the variant that first tries to parse string input as JSON).  Strings are
parsed (`tryParseJson`) and the parse is sanitized in their place; non-object
scalars pass through; at `depth >= JSON_DEPTH` containers are replaced by the
max-depth marker; arrays are truncated to `ARRAY_LENGTH` and sanitized
element-wise; objects are rebuilt key by key, recursing first into values of
object type and then applying `sanitizeValue` under the field's key. -/
def sanitizeBody (S : List JStr) (lim : ContentLimits) : JsValue → Nat → JsValue
  | .vStr s, depth =>
    (match h : tryParseJson s with
     | some parsed => sanitizeBody S lim parsed depth
     | none => .vStr s)
  | .vNull, _ => .vNull
  | .vUndefined, _ => .vUndefined
  | .vBool b, _ => .vBool b
  | .vNum lex, _ => .vNum lex
  | .vArr l, depth =>
    if lim.jsonDepth ≤ depth then .vStr maxDepthMarker
    else .vArr (sanitizeArr S lim (l.take lim.arrayLength) depth)
  | .vObj kvs, depth =>
    if lim.jsonDepth ≤ depth then .vStr maxDepthMarker
    else .vObj (sanitizeObj S lim kvs depth)
termination_by v _ => szV v
decreasing_by
  · exact tryParseJson_sz h
  · have := szL_take lim.arrayLength l
    simp only [szV]
    omega
  · simp only [szV]
    omega

/-- The element-wise `map` of the array branch of `sanitizeBody`. -/
def sanitizeArr (S : List JStr) (lim : ContentLimits) :
    List JsValue → Nat → List JsValue
  | [], _ => []
  | v :: t, depth => sanitizeBody S lim v (depth + 1) :: sanitizeArr S lim t depth
termination_by l _ => szL l
decreasing_by
  · simp only [szL]
    omega
  · simp only [szL]
    omega

/-- The `Object.entries(...).reduce(...)` of the object branch of
`sanitizeBody`. -/
def sanitizeObj (S : List JStr) (lim : ContentLimits) :
    List (JStr × JsValue) → Nat → List (JStr × JsValue)
  | [], _ => []
  | (k, v) :: t, depth =>
    (k, sanitizeValue k
      (if jsTypeofObjectB v then sanitizeBody S lim v (depth + 1) else v) S) ::
      sanitizeObj S lim t depth
termination_by l _ => szO l
decreasing_by
  · simp only [szO]
    omega
  · simp only [szO]
    omega

end

theorem sanitizeBody_str_some {s : JStr} {p : JsValue}
    (S : List JStr) (lim : ContentLimits) (d : Nat)
    (h : tryParseJson s = some p) :
    sanitizeBody S lim (.vStr s) d = sanitizeBody S lim p d := by
  conv_lhs => unfold sanitizeBody
  split
  · rename_i p' hp
    rw [hp] at h
    simp only [Option.some.injEq] at h
    rw [h]
  · rename_i hp
    rw [hp] at h
    simp at h

theorem sanitizeBody_str_none {s : JStr}
    (S : List JStr) (lim : ContentLimits) (d : Nat)
    (h : tryParseJson s = none) :
    sanitizeBody S lim (.vStr s) d = .vStr s := by
  conv_lhs => unfold sanitizeBody
  split
  · rename_i p' hp
    rw [hp] at h
    simp at h
  · rfl

theorem sanitizeBody_arr (S : List JStr) (lim : ContentLimits)
    (l : List JsValue) (d : Nat) :
    sanitizeBody S lim (.vArr l) d =
      (if lim.jsonDepth ≤ d then .vStr maxDepthMarker
       else .vArr (sanitizeArr S lim (l.take lim.arrayLength) d)) := by
  conv_lhs => unfold sanitizeBody

theorem sanitizeBody_obj (S : List JStr) (lim : ContentLimits)
    (kvs : List (JStr × JsValue)) (d : Nat) :
    sanitizeBody S lim (.vObj kvs) d =
      (if lim.jsonDepth ≤ d then .vStr maxDepthMarker
       else .vObj (sanitizeObj S lim kvs d)) := by
  conv_lhs => unfold sanitizeBody

theorem sanitizeArr_cons (S : List JStr) (lim : ContentLimits) (v : JsValue)
    (t : List JsValue) (d : Nat) :
    sanitizeArr S lim (v :: t) d =
      sanitizeBody S lim v (d + 1) :: sanitizeArr S lim t d := by
  conv_lhs => unfold sanitizeArr

theorem sanitizeObj_cons (S : List JStr) (lim : ContentLimits) (k : JStr)
    (v : JsValue) (t : List (JStr × JsValue)) (d : Nat) :
    sanitizeObj S lim ((k, v) :: t) d =
      (k, sanitizeValue k
        (if jsTypeofObjectB v then sanitizeBody S lim v (d + 1) else v) S) ::
        sanitizeObj S lim t d := by
  conv_lhs => unfold sanitizeObj

theorem sanitizeValue_sensitive (key : JStr) (value : JsValue)
    (S : List JStr) (h : S.contains (toLowerL key) = true) :
    sanitizeValue key value S = .vStr redactedMarker := by
  unfold sanitizeValue
  rw [if_pos h]

theorem sanitizeObj_keys (S : List JStr) (lim : ContentLimits)
    (kvs : List (JStr × JsValue)) (d : Nat) :
    (sanitizeObj S lim kvs d).map Prod.fst = kvs.map Prod.fst := by
  induction kvs with
  | nil => simp [sanitizeObj]
  | cons kv t ih =>
    obtain ⟨k, v⟩ := kv
    rw [sanitizeObj_cons]
    simp only [List.map_cons, ih]

theorem sanitizeObj_sensitive_mem (S : List JStr) (lim : ContentLimits)
    (kvs : List (JStr × JsValue)) (d : Nat) :
    ∀ k v, (k, v) ∈ kvs → S.contains (toLowerL k) = true →
      (k, JsValue.vStr redactedMarker) ∈ sanitizeObj S lim kvs d := by
  induction kvs with
  | nil => simp
  | cons kv t ih =>
    obtain ⟨k', v'⟩ := kv
    intro k v hmem hsens
    rw [sanitizeObj_cons]
    rcases List.mem_cons.mp hmem with hh | ht
    · obtain ⟨rfl, rfl⟩ := Prod.mk.injEq .. ▸ hh
      rw [sanitizeValue_sensitive _ _ _ hsens]
      exact List.mem_cons_self _ _
    · exact List.mem_cons_of_mem _ (ih k v ht hsens)

/-- C8 (confirmed): a truthy value of object type (a non-null object or
array) hitting `sanitizeBody` at depth at or beyond `JSON_DEPTH` is replaced
by the `[MAX DEPTH EXCEEDED]` marker without descending; below the limit an
object is rebuilt entry by entry, with every sensitive-keyed entry redacted
(this holds at every recursion level, hence at arbitrary nesting). -/
theorem C8_depth_limit (S : List JStr) (lim : ContentLimits) (obj : JsValue)
    (d : Nat) :
    ((jsTypeofObjectB obj = true ∧ jsTruthy obj = true ∧ lim.jsonDepth ≤ d) →
      sanitizeBody S lim obj d = .vStr maxDepthMarker) ∧
    (d < lim.jsonDepth → ∀ kvs, obj = .vObj kvs →
      sanitizeBody S lim obj d = .vObj (sanitizeObj S lim kvs d) ∧
      ∀ k v, (k, v) ∈ kvs → S.contains (toLowerL k) = true →
        (k, JsValue.vStr redactedMarker) ∈ sanitizeObj S lim kvs d) := by
  constructor
  · rintro ⟨hobj, htr, hd⟩
    cases obj with
    | vNull => simp [jsTruthy] at htr
    | vUndefined => simp [jsTypeofObjectB] at hobj
    | vBool b => simp [jsTypeofObjectB] at hobj
    | vNum lex => simp [jsTypeofObjectB] at hobj
    | vStr s => simp [jsTypeofObjectB] at hobj
    | vArr l => rw [sanitizeBody_arr, if_pos hd]
    | vObj kvs => rw [sanitizeBody_obj, if_pos hd]
  · rintro hd kvs rfl
    refine ⟨by rw [sanitizeBody_obj, if_neg (by omega)], ?_⟩
    exact sanitizeObj_sensitive_mem S lim kvs d

theorem C8_depth_limit_witness :
    sanitizeBody defaultSensitiveFields defaultLimits
      (.vObj [("password".data, .vStr "x".data)]) 10 = .vStr maxDepthMarker :=
  (C8_depth_limit defaultSensitiveFields defaultLimits
    (.vObj [("password".data, .vStr "x".data)]) 10).1
    ⟨by decide, by decide, by decide⟩

/-- C10 (confirmed): below the depth limit, sanitizing a non-array object
yields an object with exactly the same keys in the same order (values are
replaced, fields are never removed, added or renamed). -/
theorem C10_object_keys_preserved (S : List JStr) (lim : ContentLimits)
    (kvs : List (JStr × JsValue)) (d : Nat) (hd : d < lim.jsonDepth) :
    ∃ kvs', sanitizeBody S lim (.vObj kvs) d = .vObj kvs' ∧
      kvs'.map Prod.fst = kvs.map Prod.fst := by
  refine ⟨sanitizeObj S lim kvs d, ?_, sanitizeObj_keys S lim kvs d⟩
  rw [sanitizeBody_obj, if_neg (by omega)]

theorem C10_object_keys_preserved_witness :
    ∃ kvs', sanitizeBody defaultSensitiveFields defaultLimits
      (.vObj [("a".data, .vNum "1".data), ("password".data, .vStr "x".data)]) 0 =
        .vObj kvs' ∧
      kvs'.map Prod.fst =
        [("a".data, JsValue.vNum "1".data),
         ("password".data, JsValue.vStr "x".data)].map Prod.fst :=
  C10_object_keys_preserved defaultSensitiveFields defaultLimits
    [("a".data, .vNum "1".data), ("password".data, .vStr "x".data)] 0 (by decide)

/-! ### Idempotence of sanitization -/

mutual

/-- Realisability bound of JavaScript values: every string is shorter than
2^53 (the ECMAScript bound on string length; real engines are far below it).
Lean lists are unbounded, so this records what is true of every value a
JavaScript program can hold. -/
def jsWFV : JsValue → Bool
  | .vStr s => decide (s.length < 2 ^ 53)
  | .vArr l => jsWFL l
  | .vObj kvs => jsWFO kvs
  | _ => true

/-- `jsWFV` on every array element. -/
def jsWFL : List JsValue → Bool
  | [] => true
  | v :: t => jsWFV v && jsWFL t

/-- `jsWFV` on every object entry value. -/
def jsWFO : List (JStr × JsValue) → Bool
  | [] => true
  | (_, v) :: t => jsWFV v && jsWFO t

end

theorem sanitizeBody_null (S : List JStr) (lim : ContentLimits) (d : Nat) :
    sanitizeBody S lim .vNull d = .vNull := by
  unfold sanitizeBody
  rfl

theorem sanitizeBody_undefined (S : List JStr) (lim : ContentLimits) (d : Nat) :
    sanitizeBody S lim .vUndefined d = .vUndefined := by
  unfold sanitizeBody
  rfl

theorem sanitizeBody_bool (S : List JStr) (lim : ContentLimits) (b : Bool)
    (d : Nat) : sanitizeBody S lim (.vBool b) d = .vBool b := by
  unfold sanitizeBody
  rfl

theorem sanitizeBody_num (S : List JStr) (lim : ContentLimits) (lex : JStr)
    (d : Nat) : sanitizeBody S lim (.vNum lex) d = .vNum lex := by
  unfold sanitizeBody
  rfl

theorem tryParseJson_maxDepthMarker : tryParseJson maxDepthMarker = none := rfl

theorem sanitizeValue_pass (k : JStr) (v : JsValue) (S : List JStr)
    (hns : S.contains (toLowerL k) = false)
    (h : jsTruthy v = false ∨ isStrB v = false) :
    sanitizeValue k v S = v := by
  unfold sanitizeValue
  rw [if_neg (by rw [hns]; exact Bool.false_ne_true)]
  rw [if_pos (by rcases h with h | h <;> simp [h])]

theorem sanitizeValue_short (k m : JStr) (S : List JStr)
    (hns : S.contains (toLowerL k) = false)
    (hne : m ≠ []) (hlen : m.length ≤ 100) :
    sanitizeValue k (.vStr m) S = .vStr m := by
  unfold sanitizeValue
  rw [if_neg (by rw [hns]; exact Bool.false_ne_true)]
  rw [if_neg (by simp [jsTruthy, isStrB, List.isEmpty_iff, hne])]
  simp only []
  rw [if_neg (by omega), if_neg (by omega)]
  unfold sanitizeImageData
  simp only []
  rw [if_neg (by omega), if_neg (by omega)]

theorem kbRounded_div_lt {len : Nat} (h : len < 2 ^ 53) :
    ((len + 512) / 1024) < 10 ^ 16 := by
  rw [Nat.div_lt_iff_lt_mul (by norm_num)]
  calc len + 512 < 2 ^ 53 + 512 := by omega
  _ < 10 ^ 16 * 1024 := by norm_num

theorem kbRounded_length {len : Nat} (h : len < 2 ^ 53) :
    (kbRounded len).length ≤ 16 := by
  unfold kbRounded
  have h1 := kbRounded_div_lt h
  have h2 : (10 : Nat) ^ 16 = 10 ^ (15 + 1) := by norm_num
  exact natDecimal_length_le _ 15 (by omega)

theorem largeImageDataMarker_length (len : Nat) :
    (largeImageDataMarker len).length = 23 + (kbRounded len).length := by
  have h1 : ("[LARGE IMAGE DATA - ".data).length = 20 := rfl
  have h2 : ("KB]".data).length = 3 := rfl
  simp only [largeImageDataMarker, List.length_append, h1, h2]
  omega

theorem largeBase64DataMarker_length (len : Nat) :
    (largeBase64DataMarker len).length = 24 + (kbRounded len).length := by
  have h1 : ("[LARGE BASE64 DATA - ".data).length = 21 := rfl
  have h2 : ("KB]".data).length = 3 := rfl
  simp only [largeBase64DataMarker, List.length_append, h1, h2]
  omega

theorem largeStringMarker_length (len : Nat) :
    (largeStringMarker len).length = 19 + (kbRounded len).length := by
  have h1 : ("[LARGE STRING - ".data).length = 16 := rfl
  have h2 : ("KB]".data).length = 3 := rfl
  simp only [largeStringMarker, List.length_append, h1, h2]
  omega

theorem sanitizeValue_output (k : JStr) (v : JsValue) (S : List JStr)
    (hns : S.contains (toLowerL k) = false) (hwf : jsWFV v = true) :
    sanitizeValue k v S = v ∨
    ∃ m, sanitizeValue k v S = .vStr m ∧ m ≠ [] ∧ m.length ≤ 100 := by
  cases v with
  | vNull => exact Or.inl (sanitizeValue_pass _ _ _ hns (Or.inl rfl))
  | vUndefined => exact Or.inl (sanitizeValue_pass _ _ _ hns (Or.inl rfl))
  | vBool b => exact Or.inl (sanitizeValue_pass _ _ _ hns (Or.inr rfl))
  | vNum lex => exact Or.inl (sanitizeValue_pass _ _ _ hns (Or.inr rfl))
  | vArr l => exact Or.inl (sanitizeValue_pass _ _ _ hns (Or.inr rfl))
  | vObj kvs => exact Or.inl (sanitizeValue_pass _ _ _ hns (Or.inr rfl))
  | vStr s =>
    by_cases hemp : s = []
    · subst hemp
      exact Or.inl (sanitizeValue_pass _ _ _ hns (Or.inl (by simp [jsTruthy])))
    · simp only [jsWFV, decide_eq_true_eq] at hwf
      have hkb := kbRounded_length hwf
      by_cases h10k : 10000 < s.length
      · right
        unfold sanitizeValue
        rw [if_neg (by rw [hns]; exact Bool.false_ne_true)]
        rw [if_neg (by simp [jsTruthy, isStrB, List.isEmpty_iff, hemp])]
        simp only []
        rw [if_pos h10k]
        split
        · split
          · refine ⟨_, rfl, ?_, ?_⟩
            · refine List.ne_nil_of_length_pos ?_
              rw [largeImageDataMarker_length]
              omega
            · rw [largeImageDataMarker_length]
              omega
          · refine ⟨_, rfl, ?_, ?_⟩
            · refine List.ne_nil_of_length_pos ?_
              rw [largeBase64DataMarker_length]
              omega
            · rw [largeBase64DataMarker_length]
              omega
        · refine ⟨_, rfl, ?_, ?_⟩
          · refine List.ne_nil_of_length_pos ?_
            rw [largeStringMarker_length]
            omega
          · rw [largeStringMarker_length]
            omega
      · by_cases h100 : 100 < s.length
        · rw [sanitizeValue_longStr k s S hns h100 (by omega)]
          split
          · exact Or.inr ⟨_, rfl, by decide, by decide⟩
          · split
            · exact Or.inr ⟨_, rfl, by decide, by decide⟩
            · split
              · exact Or.inr ⟨_, rfl, by decide, by decide⟩
              · split
                · exact Or.inr ⟨_, rfl, by decide, by decide⟩
                · split
                  · exact Or.inr ⟨_, rfl, by decide, by decide⟩
                  · unfold sanitizeImageData
                    simp only []
                    rw [if_neg (by omega), if_pos h100]
                    split
                    · exact Or.inr ⟨_, rfl, by decide, by decide⟩
                    · split
                      · exact Or.inr ⟨_, rfl, by decide, by decide⟩
                      · exact Or.inl rfl
        · exact Or.inl (sanitizeValue_short k s S hns hemp (by omega))

theorem sanitizeArr_nil (S : List JStr) (lim : ContentLimits) (d : Nat) :
    sanitizeArr S lim [] d = [] := by
  unfold sanitizeArr
  rfl

theorem sanitizeObj_nil (S : List JStr) (lim : ContentLimits) (d : Nat) :
    sanitizeObj S lim [] d = [] := by
  unfold sanitizeObj
  rfl

theorem sanitizeArr_length (S : List JStr) (lim : ContentLimits)
    (l : List JsValue) (d : Nat) :
    (sanitizeArr S lim l d).length = l.length := by
  induction l with
  | nil => rw [sanitizeArr_nil]
  | cons v t ih =>
    rw [sanitizeArr_cons]
    simp only [List.length_cons, ih]

theorem jsWFL_take {l : List JsValue} (n : Nat) (h : jsWFL l = true) :
    jsWFL (l.take n) = true := by
  induction l generalizing n with
  | nil => simp [jsWFL]
  | cons v t ih =>
    cases n with
    | zero => simp [jsWFL]
    | succ n =>
      simp only [List.take_succ_cons, jsWFL, Bool.and_eq_true] at h ⊢
      exact ⟨h.1, ih n h.2⟩

theorem jsWF_of_sz (N : Nat) :
    (∀ v : JsValue, szV v ≤ N → szV v < 2 ^ 53 → jsWFV v = true) ∧
    (∀ l : List JsValue, szL l ≤ N → szL l < 2 ^ 53 → jsWFL l = true) ∧
    (∀ kvs : List (JStr × JsValue), szO kvs ≤ N → szO kvs < 2 ^ 53 →
      jsWFO kvs = true) := by
  induction N with
  | zero =>
    refine ⟨?_, ?_, ?_⟩
    · intro v hsz _
      cases v <;> simp [szV] at hsz <;> omega
    · intro l _ _
      cases l with
      | nil => rfl
      | cons v t =>
        rename_i hsz _
        simp only [szL] at hsz
        have := Nat.le_of_eq (rfl : szV v = szV v)
        omega
    · intro kvs _ _
      cases kvs with
      | nil => rfl
      | cons kv t =>
        rename_i hsz _
        obtain ⟨k, v⟩ := kv
        simp only [szO] at hsz
        omega
  | succ N ih =>
    obtain ⟨ihV, ihL, ihO⟩ := ih
    refine ⟨?_, ?_, ?_⟩
    · intro v hsz hlt
      cases v with
      | vNull => rfl
      | vUndefined => rfl
      | vBool b => rfl
      | vNum lex => rfl
      | vStr s =>
        simp only [szV] at hlt
        simp only [jsWFV, decide_eq_true_eq]
        omega
      | vArr l =>
        simp only [szV] at hsz hlt
        exact ihL l (by omega) (by omega)
      | vObj kvs =>
        simp only [szV] at hsz hlt
        exact ihO kvs (by omega) (by omega)
    · intro l hsz hlt
      cases l with
      | nil => rfl
      | cons v t =>
        simp only [szL] at hsz hlt
        simp only [jsWFL, Bool.and_eq_true]
        have h1 : szV v ≥ 1 := by cases v <;> simp [szV] <;> omega
        have h2 : szL t ≥ 0 := Nat.zero_le _
        exact ⟨ihV v (by omega) (by omega), ihL t (by omega) (by omega)⟩
    · intro kvs hsz hlt
      cases kvs with
      | nil => rfl
      | cons kv t =>
        obtain ⟨k, v⟩ := kv
        simp only [szO] at hsz hlt
        simp only [jsWFO, Bool.and_eq_true]
        exact ⟨ihV v (by omega) (by omega), ihO t (by omega) (by omega)⟩

theorem jsWFV_parsed {s : JStr} {p : JsValue} (hp : tryParseJson s = some p)
    (hs : s.length < 2 ^ 53) : jsWFV p = true := by
  have h1 := tryParseJson_sz hp
  simp only [szV] at h1
  exact (jsWF_of_sz (szV p)).1 p le_rfl (by omega)

theorem sanitizeBody_objType_shape (S : List JStr) (lim : ContentLimits)
    (v : JsValue) (d : Nat) (h : jsTypeofObjectB v = true) :
    sanitizeBody S lim v d = .vNull ∨
    sanitizeBody S lim v d = .vStr maxDepthMarker ∨
    (∃ l, sanitizeBody S lim v d = .vArr l) ∨
    (∃ kvs, sanitizeBody S lim v d = .vObj kvs) := by
  cases v with
  | vNull => exact Or.inl (sanitizeBody_null S lim d)
  | vArr l =>
    rw [sanitizeBody_arr]
    by_cases hd : lim.jsonDepth ≤ d
    · rw [if_pos hd]
      exact Or.inr (Or.inl rfl)
    · rw [if_neg hd]
      exact Or.inr (Or.inr (Or.inl ⟨_, rfl⟩))
  | vObj kvs =>
    rw [sanitizeBody_obj]
    by_cases hd : lim.jsonDepth ≤ d
    · rw [if_pos hd]
      exact Or.inr (Or.inl rfl)
    · rw [if_neg hd]
      exact Or.inr (Or.inr (Or.inr ⟨_, rfl⟩))
  | vUndefined => simp [jsTypeofObjectB] at h
  | vBool b => simp [jsTypeofObjectB] at h
  | vNum lex => simp [jsTypeofObjectB] at h
  | vStr s => simp [jsTypeofObjectB] at h

theorem sanitize_idem_aux (N : Nat) :
    (∀ S lim obj d, szV obj ≤ N → jsWFV obj = true →
      sanitizeBody S lim (sanitizeBody S lim obj d) d =
        sanitizeBody S lim obj d) ∧
    (∀ S lim l d, szL l ≤ N → jsWFL l = true →
      sanitizeArr S lim (sanitizeArr S lim l d) d = sanitizeArr S lim l d) ∧
    (∀ S lim kvs d, szO kvs ≤ N → jsWFO kvs = true →
      sanitizeObj S lim (sanitizeObj S lim kvs d) d =
        sanitizeObj S lim kvs d) := by
  induction N using Nat.strong_induction_on with
  | _ N ih =>
    refine ⟨?_, ?_, ?_⟩
    · intro S lim obj d hsz hwf
      cases obj with
      | vNull => rw [sanitizeBody_null, sanitizeBody_null]
      | vUndefined => rw [sanitizeBody_undefined, sanitizeBody_undefined]
      | vBool b => rw [sanitizeBody_bool, sanitizeBody_bool]
      | vNum lex => rw [sanitizeBody_num, sanitizeBody_num]
      | vStr s =>
        cases hp : tryParseJson s with
        | none => rw [sanitizeBody_str_none _ _ _ hp, sanitizeBody_str_none _ _ _ hp]
        | some p =>
          rw [sanitizeBody_str_some _ _ _ hp]
          have hszp := tryParseJson_sz hp
          simp only [szV] at hszp hsz
          have hwfs : s.length < 2 ^ 53 := by
            simpa [jsWFV] using hwf
          have hwfp : jsWFV p = true := jsWFV_parsed hp hwfs
          exact (ih (szV p) (by omega)).1 S lim p d le_rfl hwfp
      | vArr l =>
        rw [sanitizeBody_arr]
        by_cases hd : lim.jsonDepth ≤ d
        · rw [if_pos hd]
          rw [sanitizeBody_str_none _ _ _ tryParseJson_maxDepthMarker]
        · rw [if_neg hd, sanitizeBody_arr, if_neg hd]
          have hlen : (sanitizeArr S lim (l.take lim.arrayLength) d).length ≤
              lim.arrayLength := by
            rw [sanitizeArr_length]
            simp
          rw [List.take_of_length_le hlen]
          simp only [szV] at hsz
          have hszt := szL_take lim.arrayLength l
          have hwfl : jsWFL (l.take lim.arrayLength) = true :=
            jsWFL_take _ (by simpa [jsWFV] using hwf)
          exact congrArg JsValue.vArr
            ((ih (szL (l.take lim.arrayLength)) (by omega)).2.1 S lim _ d le_rfl hwfl)
      | vObj kvs =>
        rw [sanitizeBody_obj]
        by_cases hd : lim.jsonDepth ≤ d
        · rw [if_pos hd]
          rw [sanitizeBody_str_none _ _ _ tryParseJson_maxDepthMarker]
        · rw [if_neg hd, sanitizeBody_obj, if_neg hd]
          simp only [szV] at hsz
          have hwfo : jsWFO kvs = true := by simpa [jsWFV] using hwf
          exact congrArg JsValue.vObj
            ((ih (szO kvs) (by omega)).2.2 S lim kvs d le_rfl hwfo)
    · intro S lim l d hsz hwfl
      cases l with
      | nil => rw [sanitizeArr_nil, sanitizeArr_nil]
      | cons v t =>
        rw [sanitizeArr_cons, sanitizeArr_cons]
        simp only [szL] at hsz
        simp only [jsWFL, Bool.and_eq_true] at hwfl
        have h1 : szV v ≥ 1 := by cases v <;> simp [szV]
        congr 1
        · exact (ih (szV v) (by omega)).1 S lim v (d + 1) le_rfl hwfl.1
        · exact (ih (szL t) (by omega)).2.1 S lim t d le_rfl hwfl.2
    · intro S lim kvs d hsz hwfo
      cases kvs with
      | nil => rw [sanitizeObj_nil, sanitizeObj_nil]
      | cons kv t =>
        obtain ⟨k, v⟩ := kv
        rw [sanitizeObj_cons, sanitizeObj_cons]
        simp only [szO] at hsz
        simp only [jsWFO, Bool.and_eq_true] at hwfo
        obtain ⟨hwfv, hwft⟩ := hwfo
        have h1 : szV v ≥ 1 := by cases v <;> simp [szV]
        congr 1
        · congr 1
          by_cases hsens : S.contains (toLowerL k) = true
          · have hw : sanitizeValue k
                (if jsTypeofObjectB v then sanitizeBody S lim v (d + 1) else v)
                S = .vStr redactedMarker :=
              sanitizeValue_sensitive _ _ _ hsens
            rw [hw]
            exact sanitizeValue_sensitive _ _ _ hsens
          · have hns : S.contains (toLowerL k) = false :=
              Bool.eq_false_iff.mpr hsens
            by_cases hobj : jsTypeofObjectB v = true
            · rw [if_pos hobj]
              rcases sanitizeBody_objType_shape S lim v (d + 1) hobj with
                hX | hX | ⟨l', hX⟩ | ⟨kvs', hX⟩
              · rw [hX]
                have hp : sanitizeValue k JsValue.vNull S = JsValue.vNull :=
                  sanitizeValue_pass k JsValue.vNull S hns (Or.inl rfl)
                rw [hp,
                  if_pos (show jsTypeofObjectB JsValue.vNull = true from rfl),
                  sanitizeBody_null, hp]
              · rw [hX]
                have hshort : sanitizeValue k (.vStr maxDepthMarker) S =
                    .vStr maxDepthMarker :=
                  sanitizeValue_short k maxDepthMarker S hns (by decide) (by decide)
                rw [hshort, if_neg (show ¬ (jsTypeofObjectB
                  (JsValue.vStr maxDepthMarker) = true) from
                  fun h => Bool.false_ne_true h), hshort]
              · have hidem := (ih (szV v) (by omega)).1 S lim v (d + 1) le_rfl hwfv
                rw [hX] at hidem
                rw [hX]
                have hp : sanitizeValue k (JsValue.vArr l') S = JsValue.vArr l' :=
                  sanitizeValue_pass k (JsValue.vArr l') S hns (Or.inr rfl)
                rw [hp,
                  if_pos (show jsTypeofObjectB (JsValue.vArr l') = true from rfl),
                  hidem, hp]
              · have hidem := (ih (szV v) (by omega)).1 S lim v (d + 1) le_rfl hwfv
                rw [hX] at hidem
                rw [hX]
                have hp : sanitizeValue k (JsValue.vObj kvs') S =
                    JsValue.vObj kvs' :=
                  sanitizeValue_pass k (JsValue.vObj kvs') S hns (Or.inr rfl)
                rw [hp,
                  if_pos (show jsTypeofObjectB (JsValue.vObj kvs') = true from rfl),
                  hidem, hp]
            · rw [if_neg hobj]
              rcases sanitizeValue_output k v S hns hwfv with hw | ⟨m, hw, hne, hlen⟩
              · rw [hw, if_neg hobj, hw]
              · rw [hw, if_neg (show ¬ (jsTypeofObjectB
                  (JsValue.vStr m) = true) from fun h => Bool.false_ne_true h)]
                rw [sanitizeValue_short k m S hns hne hlen]
        · exact (ih (szO t) (by omega)).2.2 S lim t d le_rfl hwft

/-- C6: `sanitizeBody` is idempotent: sanitizing an already-sanitized value
(at the same depth, with the same sensitive-field set and limits) returns it
unchanged.  The hypothesis `jsWFV obj` records the JavaScript invariant that
every string's length is below `2 ^ 53` (so size placeholders such as
`[LARGE STRING: <n>KB]` stay at most 100 characters and are never
re-redacted). -/
theorem C6_sanitize_idempotent (S : List JStr) (lim : ContentLimits)
    (obj : JsValue) (d : Nat) (hwf : jsWFV obj = true) :
    sanitizeBody S lim (sanitizeBody S lim obj d) d =
      sanitizeBody S lim obj d :=
  (sanitize_idem_aux (szV obj)).1 S lim obj d le_rfl hwf

/-- Witness for C6 at a concrete object containing a sensitive key, a nested
object and a plain string. -/
theorem C6_sanitize_idempotent_witness :
    jsWFV (JsValue.vObj [("password".data, JsValue.vStr "hunter2".data),
      ("data".data, JsValue.vObj [("a".data, JsValue.vStr "x".data)])]) =
        true ∧
    sanitizeBody defaultSensitiveFields defaultLimits
      (sanitizeBody defaultSensitiveFields defaultLimits
        (JsValue.vObj [("password".data, JsValue.vStr "hunter2".data),
          ("data".data, JsValue.vObj [("a".data, JsValue.vStr "x".data)])]) 0)
      0 =
    sanitizeBody defaultSensitiveFields defaultLimits
      (JsValue.vObj [("password".data, JsValue.vStr "hunter2".data),
        ("data".data, JsValue.vObj [("a".data, JsValue.vStr "x".data)])]) 0 :=
  ⟨by decide, C6_sanitize_idempotent defaultSensitiveFields defaultLimits
    (JsValue.vObj [("password".data, JsValue.vStr "hunter2".data),
      ("data".data, JsValue.vObj [("a".data, JsValue.vStr "x".data)])]) 0
    (by decide)⟩

/-! ### The AWS log renderer (`src/utils/aws-formatter.js`)

`formatAwsLog` rewrites a log record for AWS mode.  The embedding models the
host environment (wall clock, `crypto.randomBytes`, `Date` parsing,
`new URL(...).pathname`, `toString(16)` of non-string trace ids, and the
`LOG_TYPE` configuration value read by `getConfigValue`) as an explicit
`AwsHost` record of oracles, and a thrown `TypeError` (a truthy non-string
`spanId` hitting `.replace`) as `none`. -/

/-- JS property read on an object's own entries: the value at the key, or
`undefined` when absent. -/
def jsGetF (entries : List (JStr × JsValue)) (k : JStr) : JsValue :=
  match entries.find? (fun kv => decide (kv.1 = k)) with
  | some kv => kv.2
  | none => .vUndefined

/-- JS `a || b` (truthiness select). -/
def jsOr (a b : JsValue) : JsValue := if jsTruthy a then a else b

/-- JS `v === undefined`. -/
def isUndefB : JsValue → Bool
  | .vUndefined => true
  | _ => false

/-- JS `v === null`. -/
def isNullB : JsValue → Bool
  | .vNull => true
  | _ => false

/-- JS `v === 's'` for a string literal `'s'`: strict equality against a
string is true exactly for that string value. -/
def strictEqStrB (v : JsValue) (s : JStr) : Bool :=
  match v with
  | .vStr t => decide (t = s)
  | _ => false

/-- JS `typeof v === 'string' && v.length > 0`. -/
def nonEmptyStrB : JsValue → Bool
  | .vStr s => decide (0 < s.length)
  | _ => false

/-- `v?.k`: optional-chained property access — `undefined` on nullish
values, a property read on objects, `undefined` on the other primitives
(which own none of the property names read here). -/
def optGet (v : JsValue) (k : JStr) : JsValue :=
  match v with
  | .vObj kvs => jsGetF kvs k
  | _ => .vUndefined

/-- The own enumerable string-keyed properties of a value that passes the
`typeof === 'object'` guard: an object's entries, or an array's index
properties (JS index keys are decimal strings). -/
def ownEntries : JsValue → List (JStr × JsValue)
  | .vObj kvs => kvs
  | .vArr l => l.enum.map (fun iv => (natDecimal iv.1, iv.2))
  | _ => []

/-- Host-environment inputs of the AWS formatter (see the section header). -/
structure AwsHost where
  nowIso : JStr
  nowEpochSec : Nat
  epochSecondsOf : JsValue → Nat
  toStringRadix16 : JsValue → JStr
  urlPathname : JsValue → Option JStr
  randBytes16 : List Nat
  cfgLogType : JsValue

/-- The anchored regex `/^1-[0-9a-f]{8}-[0-9a-f]{24}$/i`. -/
def awsXrayShapeCIB (s : JStr) : Bool :=
  match s with
  | '1' :: '-' :: t =>
    (decide ((t.take 8).length = 8) && (t.take 8).all isHexCIB) &&
      (match t.drop 8 with
       | '-' :: tid => decide (tid.length = 24) && tid.all isHexCIB
       | _ => false)
  | _ => false

/-- `convertToAwsXRayTraceId(traceId, timestamp)` (aws-formatter.js lines
4-25).  `Math.floor(new Date(x).getTime() / 1000)` and `toString(16)` of a
non-string trace id are host oracles. -/
def convertToAwsXRayTraceId (H : AwsHost) (traceId timestamp : JsValue) :
    JsValue :=
  if !(jsTruthy traceId) then .vNull
  else if (match traceId with
           | .vStr s => awsXrayShapeCIB s
           | _ => false) then traceId
  else if (match traceId with
           | .vStr s => startsWithB ("Root=".data) s
           | _ => false) then
    (match traceId with
     | .vStr s => .vStr (s.drop 5)
     | _ => .vNull)
  else
    let epochSeconds := if jsTruthy timestamp then H.epochSecondsOf timestamp
      else H.nowEpochSec
    let hexTimestamp := toLowerL (padStartL 8 '0' (natToHex epochSeconds))
    let traceIdStr := match traceId with
      | .vStr s => s
      | _ => H.toStringRadix16 traceId
    let traceIdHex :=
      toLowerL (padStartL 24 '0' ((traceIdStr.filter isHexCIB).take 24))
    .vStr ("1-".data ++ hexTimestamp ++ "-".data ++ traceIdHex)

/-- Template-literal stringification; in `generateXAmznTraceId` only `null`
and strings can reach it, so the (recursive) stringification of array
elements is not modelled. -/
def jsTemplateStr : JsValue → JStr
  | .vStr s => s
  | .vNull => "null".data
  | .vUndefined => "undefined".data
  | .vBool true => "true".data
  | .vBool false => "false".data
  | .vNum lex => lex
  | .vArr _ => []
  | .vObj _ => "[object Object]".data

/-- `Array.prototype.join(c)`. -/
def joinSep (c : Char) : List JStr → JStr
  | [] => []
  | [s] => s
  | s :: t => s ++ c :: joinSep c t

/-- `generateXAmznTraceId(traceId, spanId, sampled)` (lines 27-47); the only
call site leaves `sampled` at its default `true`.  `none` models the
`TypeError` thrown by `spanId.replace` on a truthy non-string `spanId`. -/
def generateXAmznTraceId (H : AwsHost) (traceId spanId : JsValue)
    (sampled : Bool) : Option JsValue :=
  if !(jsTruthy traceId) then some .vNull
  else
    let awsTraceId := if (match traceId with
        | .vStr s => awsXrayShapeCIB s
        | _ => false) then traceId
      else convertToAwsXRayTraceId H traceId .vNull
    if !(jsTruthy awsTraceId) then some .vNull
    else
      match (if jsTruthy spanId then
               match spanId with
               | .vStr s => some (some (toLowerL (padStartL 16 '0'
                   ((s.filter isHexCIB).take 16))))
               | _ => none
             else some none : Option (Option JStr)) with
      | none => none
      | some spanIdHex =>
        let root := "Root=".data ++ jsTemplateStr awsTraceId
        let parts := match spanIdHex with
          | some h => if h.isEmpty then [root]
            else [root, "Parent=".data ++ h]
          | none => [root]
        some (.vStr (joinSep ';'
          (parts ++ [("Sampled=".data ++
            (if sampled then "1".data else "0".data))])))

/-- The field names pulled out of the record (and therefore out of `rest`)
by the destructuring in `formatAwsLog` (lines 61-69). -/
def awsDestructuredKeys : List JStr :=
  ["pid".data, "hostname".data, "level".data, "levelNumber".data,
   "time".data, "timestamp".data, "msg".data, "message".data,
   "severity".data, "requestId".data, "service".data, "traceId".data,
   "spanId".data, "method".data, "url".data, "path".data, "params".data,
   "remoteAddress".data, "headers".data, "request_payload".data,
   "httpRequest".data, "response".data, "type".data,
   "target_service".data, "instance".data, "region".data,
   "account_id".data]

/-- The `levelToSeverity` table (lines 71-78), keyed by the property names
of the numeric levels. -/
def levelToSeverity : List (JStr × JsValue) :=
  [("10".data, .vStr "DEBUG".data), ("20".data, .vStr "DEBUG".data),
   ("30".data, .vStr "INFO".data), ("40".data, .vStr "WARNING".data),
   ("50".data, .vStr "ERROR".data), ("60".data, .vStr "CRITICAL".data)]

/-- `levelToSeverity[level]`: property lookup keyed by the stringified
level (numeric lexemes and strings index directly; the stringification of
compound values, which cannot hit the table's numeric keys meaningfully, is
not modelled and misses). -/
def levelLookup (level : JsValue) : JsValue :=
  match level with
  | .vNum lex => jsGetF levelToSeverity lex
  | .vStr s => jsGetF levelToSeverity s
  | _ => .vUndefined

/-- A guarded JS property assignment `if (c) res.k = v`. -/
def awsSetIf (c : Bool) (res : List (JStr × JsValue)) (k : JStr)
    (v : JsValue) : List (JStr × JsValue) :=
  if c then setFieldE res k v else res

/-- `object.LOG_TYPE || object.logType || getConfigValue('LOG_TYPE', 'gcp')`
(line 54); the configuration read is the `cfgLogType` oracle. -/
def effLogType (H : AwsHost) (o : List (JStr × JsValue)) : JsValue :=
  jsOr (jsGetF o "LOG_TYPE".data) (jsOr (jsGetF o "logType".data) H.cfgLogType)

/-- The rest object left by the destructuring. -/
def awsRestOf (o : List (JStr × JsValue)) : List (JStr × JsValue) :=
  o.filter (fun kv => !(awsDestructuredKeys.contains kv.1))

/-- `rest` after `if (rest && rest.requestId) delete rest.requestId`
(lines 129-131). -/
def awsRest2 (o : List (JStr × JsValue)) : List (JStr × JsValue) :=
  if jsTruthy (jsGetF (awsRestOf o) "requestId".data) then
    (awsRestOf o).filter (fun kv => !(kv.1 == "requestId".data))
  else awsRestOf o

/-- The `result` object after lines 80-131: severity, level, timestamp,
type, message, service, pid, hostname and requestId. -/
def awsResultPre (H : AwsHost) (o : List (JStr × JsValue)) :
    List (JStr × JsValue) :=
  let level := jsGetF o "level".data
  let msg := jsGetF o "msg".data
  let message := jsGetF o "message".data
  let severity := jsGetF o "severity".data
  let requestId := jsGetF o "requestId".data
  let rest := awsRestOf o
  let r1 := if jsTruthy severity then setFieldE [] "severity".data severity
    else if !(isUndefB level) then setFieldE [] "severity".data
      (jsOr (levelLookup level) (jsOr (.vStr "INFO".data) (.vStr "INFO".data)))
    else setFieldE [] "severity".data (.vStr "INFO".data)
  let r2 := awsSetIf (!(isUndefB level)) r1 "level".data level
  let tsVal := jsOr (jsGetF o "timestamp".data)
    (jsOr (jsGetF o "time".data) (.vStr H.nowIso))
  let r3 := setFieldE r2 "timestamp".data tsVal
  let r4 := if jsTruthy (jsGetF o "type".data) then
      setFieldE r3 "type".data (jsGetF o "type".data)
    else setFieldE r3 "type".data (.vStr "console_log".data)
  let effectiveMessage := if nonEmptyStrB msg then msg
    else if nonEmptyStrB message then message
    else .vNull
  let r5 := awsSetIf (jsTruthy effectiveMessage) r4 "message".data
    effectiveMessage
  let r6 := awsSetIf (jsTruthy (jsGetF o "service".data)) r5 "service".data
    (jsGetF o "service".data)
  let r7 := awsSetIf (!(isUndefB (jsGetF o "pid".data))) r6 "pid".data
    (jsGetF o "pid".data)
  let r8 := awsSetIf (jsTruthy (jsGetF o "hostname".data)) r7 "hostname".data
    (jsGetF o "hostname".data)
  let finalRequestId := jsOr requestId
    (jsOr (jsGetF rest "requestId".data) (jsGetF o "requestId".data))
  setFieldE r8 "requestId".data
    (if (jsTruthy finalRequestId && !(strictEqStrB finalRequestId []) &&
         !(isNullB finalRequestId) && !(isUndefB finalRequestId)) then
       finalRequestId
     else .vStr ((bytesToHex H.randBytes16).take 8))

/-- The `if (traceId)` block (lines 133-138): converted trace id,
`x-amzn-trace-id` and `sampled`; `none` propagates the throw from
`generateXAmznTraceId`. -/
def awsTraceStage (H : AwsHost) (o : List (JStr × JsValue))
    (res : List (JStr × JsValue)) : Option (List (JStr × JsValue)) :=
  let traceId := jsGetF o "traceId".data
  let tsVal := jsOr (jsGetF o "timestamp".data)
    (jsOr (jsGetF o "time".data) (.vStr H.nowIso))
  if jsTruthy traceId then
    let awsTid := convertToAwsXRayTraceId H traceId tsVal
    match generateXAmznTraceId H awsTid (jsGetF o "spanId".data) true with
    | none => none
    | some x => some (setFieldE (setFieldE (setFieldE res "traceId".data
        awsTid) ("x-amzn-trace-id".data) x) "sampled".data (.vBool true))
  else some res

/-- The `if (spanId)` block (lines 140-142); `none` is the `TypeError` from
`.replace` on a truthy non-string. -/
def awsSpanStage (o : List (JStr × JsValue))
    (res : List (JStr × JsValue)) : Option (List (JStr × JsValue)) :=
  if jsTruthy (jsGetF o "spanId".data) then
    match jsGetF o "spanId".data with
    | .vStr s => some (setFieldE res "spanId".data
        (.vStr (toLowerL (padStartL 16 '0' ((s.filter isHexCIB).take 16)))))
    | _ => none
  else some res

/-- The request-field assignments (lines 144-170). -/
def awsTailSets (H : AwsHost) (o : List (JStr × JsValue))
    (res : List (JStr × JsValue)) : List (JStr × JsValue) :=
  let path := jsGetF o "path".data
  let httpRequest := jsGetF o "httpRequest".data
  let requestMethod := jsOr (jsGetF o "method".data)
    (optGet httpRequest "requestMethod".data)
  let requestUrl := jsOr (jsGetF o "url".data)
    (jsOr path (optGet httpRequest "requestUrl".data))
  let requestPath := jsOr path
    (if jsTruthy (optGet httpRequest "requestUrl".data) then
       (match H.urlPathname (optGet httpRequest "requestUrl".data) with
        | some p => .vStr p
        | none => optGet httpRequest "requestUrl".data)
     else .vNull)
  let requestParams := jsGetF o "params".data
  let requestRemoteAddress := jsOr (jsGetF o "remoteAddress".data)
    (optGet httpRequest "remoteIp".data)
  let requestHeaders := jsOr (jsGetF o "headers".data)
    (optGet httpRequest "headers".data)
  let requestPayload := jsOr (jsGetF o "request_payload".data)
    (optGet httpRequest "requestBody".data)
  let r12 := awsSetIf (jsTruthy requestMethod) res "method".data requestMethod
  let r13 := awsSetIf (jsTruthy requestUrl) r12 "url".data requestUrl
  let r14 := awsSetIf (jsTruthy requestPath) r13 "path".data requestPath
  let r15 := awsSetIf (!(isUndefB requestParams)) r14 "params".data
    requestParams
  let r16 := awsSetIf (jsTruthy requestRemoteAddress) r15 "remoteAddress".data
    requestRemoteAddress
  let r17 := awsSetIf (jsTruthy requestHeaders) r16 "headers".data
    requestHeaders
  let r18 := awsSetIf (jsTruthy requestPayload) r17 "request_payload".data
    requestPayload
  let r19 := awsSetIf (jsTruthy (jsGetF o "target_service".data)) r18
    "target_service".data (jsGetF o "target_service".data)
  awsSetIf (jsTruthy (jsGetF o "response".data)) r19 "response".data
    (jsGetF o "response".data)

/-- The key prefix removed by the final sweep. -/
def gcpKeyStart : JStr := "logging.googleapis.com/".data

/-- The allow-list for copying extra fields from `rest` (line 182). -/
def allowedExtraFields : List JStr :=
  ["response".data, "message".data, "logLevel".data]

/-- One step of the `Object.keys(rest).forEach` copy loop (lines
184-198). -/
def awsRestStep (res : List (JStr × JsValue)) (kv : JStr × JsValue) :
    List (JStr × JsValue) :=
  if (!(startsWithB gcpKeyStart kv.1) &&
      !(kv.1 == "resource".data) && !(kv.1 == "levelNumber".data) &&
      !(kv.1 == "time".data) && !(kv.1 == "msg".data) &&
      !(kv.1 == "message".data) && !(kv.1 == "httpRequest".data) &&
      !(kv.1 == "LOG_TYPE".data) && !(kv.1 == "logType".data) &&
      !(res.any (fun e => e.1 == kv.1)) &&
      allowedExtraFields.contains kv.1) then
    setFieldE res kv.1 kv.2
  else res

/-- The copy loop, the `logging.googleapis.com/` sweep (lines 200-204) and
`delete result.time` (line 206). -/
def awsTailStage (H : AwsHost) (o : List (JStr × JsValue))
    (res : List (JStr × JsValue)) : List (JStr × JsValue) :=
  (((awsRest2 o).foldl awsRestStep (awsTailSets H o res)).filter
      (fun kv => !(startsWithB gcpKeyStart kv.1))).filter
    (fun kv => !(kv.1 == "time".data))

/-- `formatAwsLog(object)` (lines 49-209), staged through the definitions
above; `none` models a thrown `TypeError`. -/
def formatAwsLog (H : AwsHost) (object : JsValue) : Option JsValue :=
  if !(jsTruthy object) || !(jsTypeofObjectB object) then some object
  else if !(strictEqStrB (effLogType H (ownEntries object)) "aws".data) then
    some object
  else
    match awsTraceStage H (ownEntries object)
        (awsResultPre H (ownEntries object)) with
    | none => none
    | some r10 =>
      match awsSpanStage (ownEntries object) r10 with
      | none => none
      | some r11 => some (.vObj (awsTailStage H (ownEntries object) r11))

/-- No entry of an object is keyed `'resource'`. -/
def noResourceKeyB (res : List (JStr × JsValue)) : Bool :=
  res.all (fun kv => !(kv.1 == "resource".data))

/-- The key of a cleaned AWS record entry: not `'resource'` and not prefixed
`'logging.googleapis.com/'`. -/
def noAwsBadKeyB (kv : JStr × JsValue) : Bool :=
  !(startsWithB gcpKeyStart kv.1) && !(kv.1 == "resource".data)

theorem noResource_setFieldE (res : List (JStr × JsValue)) (k : JStr)
    (v : JsValue) (hk : (k == "resource".data) = false)
    (h : noResourceKeyB res = true) :
    noResourceKeyB (setFieldE res k v) = true := by
  induction res with
  | nil => simp [setFieldE, noResourceKeyB, hk]
  | cons kv t iht =>
    obtain ⟨k', v'⟩ := kv
    simp only [noResourceKeyB, List.all_cons, Bool.and_eq_true] at h
    simp only [setFieldE]
    split
    · simp only [noResourceKeyB, List.all_cons, Bool.and_eq_true]
      exact ⟨h.1, h.2⟩
    · simp only [noResourceKeyB, List.all_cons, Bool.and_eq_true]
      exact ⟨h.1, iht h.2⟩

theorem noResource_awsSetIf (c : Bool) (res : List (JStr × JsValue))
    (k : JStr) (v : JsValue) (hk : (k == "resource".data) = false)
    (h : noResourceKeyB res = true) :
    noResourceKeyB (awsSetIf c res k v) = true := by
  cases c
  · simpa [awsSetIf] using h
  · simpa [awsSetIf] using noResource_setFieldE res k v hk h

theorem noResource_sevBase (x y z : JsValue) (c1 c2 : Bool) :
    noResourceKeyB (if c1 then setFieldE [] "severity".data x
      else if c2 then setFieldE [] "severity".data y
      else setFieldE [] "severity".data z) = true := by
  split
  · exact noResource_setFieldE [] _ _ (by decide) rfl
  · split
    · exact noResource_setFieldE [] _ _ (by decide) rfl
    · exact noResource_setFieldE [] _ _ (by decide) rfl

theorem noResource_typeSet (c : Bool) (res : List (JStr × JsValue))
    (a b : JsValue) (h : noResourceKeyB res = true) :
    noResourceKeyB (if c then setFieldE res "type".data a
      else setFieldE res "type".data b) = true := by
  split
  · exact noResource_setFieldE _ _ _ (by decide) h
  · exact noResource_setFieldE _ _ _ (by decide) h

theorem noResource_awsResultPre (H : AwsHost) (o : List (JStr × JsValue)) :
    noResourceKeyB (awsResultPre H o) = true := by
  simp only [awsResultPre]
  refine noResource_setFieldE _ _ _ (by decide) ?_
  refine noResource_awsSetIf _ _ _ _ (by decide) ?_
  refine noResource_awsSetIf _ _ _ _ (by decide) ?_
  refine noResource_awsSetIf _ _ _ _ (by decide) ?_
  refine noResource_awsSetIf _ _ _ _ (by decide) ?_
  refine noResource_typeSet _ _ _ _ ?_
  refine noResource_setFieldE _ _ _ (by decide) ?_
  refine noResource_awsSetIf _ _ _ _ (by decide) ?_
  exact noResource_sevBase _ _ _ _ _

theorem noResource_awsTraceStage (H : AwsHost) (o res r10 : _)
    (heq : awsTraceStage H o res = some r10)
    (h : noResourceKeyB res = true) : noResourceKeyB r10 = true := by
  simp only [awsTraceStage] at heq
  split at heq
  · split at heq
    · exact Option.noConfusion heq
    · injection heq with h2
      subst h2
      exact noResource_setFieldE _ _ _ (by decide)
        (noResource_setFieldE _ _ _ (by decide)
          (noResource_setFieldE _ _ _ (by decide) h))
  · injection heq with h2
    subst h2
    exact h

theorem noResource_awsSpanStage (o res r11 : _)
    (heq : awsSpanStage o res = some r11)
    (h : noResourceKeyB res = true) : noResourceKeyB r11 = true := by
  simp only [awsSpanStage] at heq
  split at heq
  · split at heq
    · injection heq with h2
      subst h2
      exact noResource_setFieldE _ _ _ (by decide) h
    · exact Option.noConfusion heq
  · injection heq with h2
    subst h2
    exact h

theorem noResource_awsTailSets (H : AwsHost) (o res : _)
    (h : noResourceKeyB res = true) :
    noResourceKeyB (awsTailSets H o res) = true := by
  simp only [awsTailSets]
  refine noResource_awsSetIf _ _ _ _ (by decide) ?_
  refine noResource_awsSetIf _ _ _ _ (by decide) ?_
  refine noResource_awsSetIf _ _ _ _ (by decide) ?_
  refine noResource_awsSetIf _ _ _ _ (by decide) ?_
  refine noResource_awsSetIf _ _ _ _ (by decide) ?_
  refine noResource_awsSetIf _ _ _ _ (by decide) ?_
  refine noResource_awsSetIf _ _ _ _ (by decide) ?_
  refine noResource_awsSetIf _ _ _ _ (by decide) ?_
  refine noResource_awsSetIf _ _ _ _ (by decide) ?_
  exact h

theorem noResource_awsRestStep (res : List (JStr × JsValue))
    (kv : JStr × JsValue) (h : noResourceKeyB res = true) :
    noResourceKeyB (awsRestStep res kv) = true := by
  unfold awsRestStep
  split
  · rename_i hc
    simp only [Bool.and_eq_true, Bool.not_eq_true'] at hc
    exact noResource_setFieldE _ _ _ hc.1.1.1.1.1.1.1.1.1.2 h
  · exact h

theorem noResource_restLoop (l : List (JStr × JsValue))
    (res : List (JStr × JsValue)) (h : noResourceKeyB res = true) :
    noResourceKeyB (l.foldl awsRestStep res) = true := by
  induction l generalizing res with
  | nil => simpa using h
  | cons kv t iht =>
    simp only [List.foldl_cons]
    exact iht _ (noResource_awsRestStep _ _ h)

theorem noAwsBad_awsTailStage (H : AwsHost) (o res : _)
    (h : noResourceKeyB res = true) :
    (awsTailStage H o res).all noAwsBadKeyB = true := by
  have h21 : noResourceKeyB
      ((awsRest2 o).foldl awsRestStep (awsTailSets H o res)) = true :=
    noResource_restLoop _ _ (noResource_awsTailSets H o res h)
  simp only [awsTailStage]
  rw [List.all_eq_true]
  intro kv hkv
  rw [List.mem_filter] at hkv
  obtain ⟨hkv1, _⟩ := hkv
  rw [List.mem_filter] at hkv1
  obtain ⟨hmem, hgcp⟩ := hkv1
  rw [noResourceKeyB, List.all_eq_true] at h21
  have hres := h21 kv hmem
  simp only [noAwsBadKeyB, Bool.and_eq_true]
  exact ⟨hgcp, hres⟩

/-- C9: for every log record whose effective log type is `'aws'`, the record
returned by `formatAwsLog` contains no key prefixed
`'logging.googleapis.com/'` and no `'resource'` key, even when such keys are
present on the input. -/
theorem C9_aws_no_gcp_keys (H : AwsHost) (obj : JsValue)
    (r : List (JStr × JsValue))
    (hty : strictEqStrB (effLogType H (ownEntries obj)) "aws".data = true)
    (hres : formatAwsLog H obj = some (.vObj r)) :
    r.all noAwsBadKeyB = true := by
  unfold formatAwsLog at hres
  split at hres
  · rename_i hg
    injection hres with h
    subst h
    simp [jsTruthy, jsTypeofObjectB] at hg
  · split at hres
    · rename_i hg2
      rw [hty] at hg2
      simp at hg2
    · split at hres
      · exact Option.noConfusion hres
      · rename_i r10 heq1
        split at hres
        · exact Option.noConfusion hres
        · rename_i r11 heq2
          injection hres with h
          injection h with h2
          subst h2
          exact noAwsBad_awsTailStage H (ownEntries obj) r11
            (noResource_awsSpanStage _ _ _ heq2
              (noResource_awsTraceStage _ _ _ _ heq1
                (noResource_awsResultPre H (ownEntries obj))))

/-- A concrete host environment for the C9 witness. -/
def awsHost0 : AwsHost :=
  ⟨"2026-01-01T00:00:00.000Z".data, 0, fun _ => 0, fun _ => [],
   fun _ => none, List.replicate 16 0, .vStr "gcp".data⟩

/-- A concrete AWS-mode record carrying both a `resource` key and a
`logging.googleapis.com/` key. -/
def awsObj0 : JsValue :=
  .vObj [("logType".data, .vStr "aws".data),
    ("resource".data, .vObj []),
    ("logging.googleapis.com/trace".data, .vStr "t".data),
    ("requestId".data, .vStr "abc".data),
    ("msg".data, .vStr "hi".data)]

/-- The record `formatAwsLog` produces for `awsObj0` under `awsHost0`. -/
def awsResult0 : List (JStr × JsValue) :=
  [("severity".data, .vStr "INFO".data),
   ("timestamp".data, .vStr "2026-01-01T00:00:00.000Z".data),
   ("type".data, .vStr "console_log".data),
   ("message".data, .vStr "hi".data),
   ("requestId".data, .vStr "abc".data)]

/-- Witness for C9: the concrete record above has effective log type `aws`,
and the formatted output keeps neither its `resource` key nor its
`logging.googleapis.com/trace` key. -/
theorem C9_aws_no_gcp_keys_witness :
    strictEqStrB (effLogType awsHost0 (ownEntries awsObj0)) "aws".data =
        true ∧
    awsResult0.all noAwsBadKeyB = true :=
  ⟨by decide, C9_aws_no_gcp_keys awsHost0 awsObj0 awsResult0 (by decide)
    (by rfl)⟩
